import Mathlib

/-!
# Reconnecting publish/subscribe client (`examples/async_pubsub.cpp`)

A shallow embedding of `class Client` of `examples/async_pubsub.cpp`.

* Every member function of `Client` is a function `Client → Client` on an explicit state.
* The state holds the members of the class (the three `deadline_timer`s, the two
  `RedisAsyncClient`s, address and port), the function-local `static size_t counter` of
  `onPublishTimeout`, the clock of the `io_service`, and a `trace`: the time-stamped list of
  every call the client made on one of its collaborators and of every line it printed.
* Pointers to member functions handed to `callLater`, `boost::bind` or `connect` are values of
  the enumerations `Method`, `ConnectHandler` and `MessageHandler`.
* `io_service::run()` is a list of `Event`s, dispatched one at a time.
-/

namespace AsyncPubsub

/-! ## Constants -/

/-- The constant `static const std::string channelName`. -/
def channelName : String := "unique-redis-channel-name-example"

/-- Loop time is counted in microseconds, the resolution of `boost::posix_time`. -/
def seconds (n : Nat) : Nat := n * 1000000

/-- The constant `static const boost::posix_time::seconds timeout(1)`. -/
def timeout : Nat := seconds 1

/-- Number of values of `size_t` (64-bit targets): `counter++` is computed modulo this. -/
def sizeModulus : Nat := 2 ^ 64

/-! ## Names of members and handlers -/

/-- The two `RedisAsyncClient` members of `Client`. -/
inductive Role where
  | publisher
  | subscriber
  deriving DecidableEq, Repr

/-- The three `boost::asio::deadline_timer` members of `Client`. -/
inductive TimerId where
  | publishTimer
  | connectSubscriberTimer
  | connectPublisherTimer
  deriving DecidableEq, Repr

/-- Member functions of type `void (Client::*)()`: the ones passed to `callLater` and bound
as error handlers in the constructor. -/
inductive Method where
  | connectPublisher
  | connectSubscriber
  | onPublishTimeout
  deriving DecidableEq, Repr

/-- Completion handlers bound in the two `connect` calls. -/
inductive ConnectHandler where
  | onPublisherConnected
  | onSubscriberConnected
  deriving DecidableEq, Repr

/-- Message handlers bound in `subscribe`. -/
inductive MessageHandler where
  | onMessage
  deriving DecidableEq, Repr

/-- The `boost::system::error_code` a wait handler is completed with. -/
inductive ErrorCode where
  | success
  | operation_aborted
  deriving DecidableEq, Repr

/-- Modelled from the spec: the connection state of a `RedisAsyncClient`
(`redisclient/redisasyncclient.h` is not part of the sources at hand), spec section 3:
"connection state (Disconnected | Connecting | Connected)". -/
inductive ConnState where
  | Disconnected
  | Connecting
  | Connected
  deriving DecidableEq, Repr

/-- One observable action of the client: a call on a collaborator or a line of output. -/
inductive Effect where
  | cerr (s : String)
  | cout (s : String)
  | installErrorHandler (r : Role) (h : Method)
  | connect (r : Role) (address : String) (port : Nat) (h : ConnectHandler)
  | disconnect (r : Role)
  | publish (r : Role) (channel : String) (payload : String)
  | subscribe (r : Role) (channel : String) (h : MessageHandler)
  | expires_from_now (t : TimerId) (d : Nat)
  | async_wait (t : TimerId) (callback : Method)
  | cancel (t : TimerId)
  deriving DecidableEq, Repr

/-! ## State -/

/-- Modelled from the spec: a `boost::asio::deadline_timer` (library type, spec section 4.1):
an absolute expiry time and the callbacks captured by the wait handlers that are pending. -/
structure DeadlineTimer where
  expiry : Nat
  pending : List Method
  deriving DecidableEq, Repr

/-- Modelled from the spec: a `redisclient::RedisAsyncClient` (declared in
`redisclient/redisasyncclient.h`, not part of the sources at hand), spec sections 3, 4.2, 6:
its connection state, the number of `connect` calls whose completion has not been delivered,
the installed error handler (a single slot) and the subscriptions of the current session. -/
structure RedisAsyncClient where
  state : ConnState
  inFlight : Nat
  errorHandler : Option Method
  subscriptions : List (String × MessageHandler)
  deriving DecidableEq, Repr

/-- The `boost::asio::io_service` the client refers to: its clock and the completions of
cancelled waits that are queued with `operation_aborted`. -/
structure IoService where
  now : Nat
  aborted : List (TimerId × Method)
  deriving DecidableEq, Repr

/-- The members of `class Client`, the `static size_t counter` of `onPublishTimeout`, and the
trace of what the client has done so far. -/
structure Client where
  ioService : IoService
  publishTimer : DeadlineTimer
  connectSubscriberTimer : DeadlineTimer
  connectPublisherTimer : DeadlineTimer
  address : String
  port : Nat
  publisher : RedisAsyncClient
  subscriber : RedisAsyncClient
  counter : Nat
  trace : List (Nat × Effect)
  deriving DecidableEq, Repr

namespace Client

/-- The timer member named by `t`. -/
def timer (c : Client) : TimerId → DeadlineTimer
  | .publishTimer => c.publishTimer
  | .connectSubscriberTimer => c.connectSubscriberTimer
  | .connectPublisherTimer => c.connectPublisherTimer

/-- Assignment to the timer member named by `t`. -/
def setTimer (c : Client) (t : TimerId) (d : DeadlineTimer) : Client :=
  match t with
  | .publishTimer => { c with publishTimer := d }
  | .connectSubscriberTimer => { c with connectSubscriberTimer := d }
  | .connectPublisherTimer => { c with connectPublisherTimer := d }

/-- The connection member named by `r`. -/
def conn (c : Client) : Role → RedisAsyncClient
  | .publisher => c.publisher
  | .subscriber => c.subscriber

/-- Assignment to the connection member named by `r`. -/
def setConn (c : Client) (r : Role) (k : RedisAsyncClient) : Client :=
  match r with
  | .publisher => { c with publisher := k }
  | .subscriber => { c with subscriber := k }

/-- Record an action, stamped with the loop time at which it happens. -/
def emit (c : Client) (e : Effect) : Client :=
  { c with trace := c.trace ++ [(c.ioService.now, e)] }

/-- Queue completions of cancelled waits on the `io_service`. -/
def abort (c : Client) (l : List (TimerId × Method)) : Client :=
  { c with ioService := { c.ioService with aborted := c.ioService.aborted ++ l } }

end Client

/-! ## Collaborators: timers and connections -/

/-- Modelled from the spec: `deadline_timer::cancel()` (spec 4.1: "`cancel()` on an unarmed
timer is a no-op", "no firing if cancelled first"): every pending wait is completed with
`operation_aborted`. -/
def timerCancel (t : TimerId) (c : Client) : Client :=
  let c := c.emit (.cancel t)
  let tm := c.timer t
  (c.setTimer t { tm with pending := [] }).abort (tm.pending.map fun m => (t, m))

/-- Modelled from the spec: `deadline_timer::expires_from_now(d)` (spec 4.1: "if armed again
before firing, the previous arming is cancelled and has no effect"): pending waits are
completed with `operation_aborted` and the expiry becomes `now + d`. -/
def timerExpiresFromNow (t : TimerId) (d : Nat) (c : Client) : Client :=
  let c := c.emit (.expires_from_now t d)
  let tm := c.timer t
  (c.setTimer t { expiry := c.ioService.now + d, pending := [] }).abort
    (tm.pending.map fun m => (t, m))

/-- Modelled from the spec: `deadline_timer::async_wait(handler)`: one more pending wait; the
handler is the lambda of `callLater`, identified by the `callback` it captures. -/
def timerAsyncWait (t : TimerId) (callback : Method) (c : Client) : Client :=
  let c := c.emit (.async_wait t callback)
  let tm := c.timer t
  c.setTimer t { tm with pending := tm.pending ++ [callback] }

/-- Modelled from the spec: `RedisAsyncClient::isConnected()` (spec 6). -/
def isConnected (r : Role) (c : Client) : Bool :=
  decide ((c.conn r).state = .Connected)

/-- Modelled from the spec: `RedisAsyncClient::disconnect()` (spec 4.2: "tears down an active
connection immediately"); the subscriptions of the session end with it. -/
def connDisconnect (r : Role) (c : Client) : Client :=
  let c := c.emit (.disconnect r)
  c.setConn r { c.conn r with state := .Disconnected, subscriptions := [] }

/-- Modelled from the spec: `RedisAsyncClient::connect(address, port, handler)` (spec 4.2:
"initiates a transport connection; result delivered via completion callback"): a new session
is being set up and one more completion is owed. -/
def connConnect (r : Role) (address : String) (port : Nat) (h : ConnectHandler)
    (c : Client) : Client :=
  let c := c.emit (.connect r address port h)
  let k := c.conn r
  c.setConn r { k with state := .Connecting, inFlight := k.inFlight + 1, subscriptions := [] }

/-- Modelled from the spec: `RedisAsyncClient::publish(channel, payload)` (spec 4.2: "no
internal guard"): the call is handed to the connection whatever its state. -/
def connPublish (r : Role) (channel payload : String) (c : Client) : Client :=
  c.emit (.publish r channel payload)

/-- Modelled from the spec: `RedisAsyncClient::subscribe(channel, handler)` (spec 4.2). -/
def connSubscribe (r : Role) (channel : String) (h : MessageHandler) (c : Client) : Client :=
  let c := c.emit (.subscribe r channel h)
  let k := c.conn r
  c.setConn r { k with subscriptions := k.subscriptions ++ [(channel, h)] }

/-- Modelled from the spec: `RedisAsyncClient::installErrorHandler(handler)` (spec 4.2: a
single slot, overwritable). -/
def connInstallErrorHandler (r : Role) (h : Method) (c : Client) : Client :=
  let c := c.emit (.installErrorHandler r h)
  c.setConn r { c.conn r with errorHandler := some h }

/-! ## The member functions of `Client` -/

/-- Constructor `Client::Client(ioService, address, port)`: timers without a pending wait, two fresh
connections, then the two `installErrorHandler` calls of the constructor body. The
`static size_t counter = 0` of `onPublishTimeout` starts at zero with the process. -/
def Client.new (address : String) (port : Nat) : Client :=
  let fresh : RedisAsyncClient :=
    { state := .Disconnected, inFlight := 0, errorHandler := none, subscriptions := [] }
  let idle : DeadlineTimer := { expiry := 0, pending := [] }
  let c : Client :=
    { ioService := { now := 0, aborted := [] }
      publishTimer := idle
      connectSubscriberTimer := idle
      connectPublisherTimer := idle
      address := address
      port := port
      publisher := fresh
      subscriber := fresh
      counter := 0
      trace := [] }
  let c := connInstallErrorHandler .publisher .connectPublisher c
  connInstallErrorHandler .subscriber .connectSubscriber c

/-- Member function `void Client::publish(const std::string &str)`. -/
def publish (str : String) (c : Client) : Client :=
  connPublish .publisher channelName str c

/-- Member function `void Client::connectPublisher()`. -/
def connectPublisher (c : Client) : Client :=
  let c := c.emit (.cerr "connectPublisher\n")
  let c :=
    if isConnected .publisher c then
      let c := c.emit (.cerr "disconnectPublisher\n")
      let c := connDisconnect .publisher c
      timerCancel .publishTimer c
    else c
  connConnect .publisher c.address c.port .onPublisherConnected c

/-- Member function `void Client::connectSubscriber()`. -/
def connectSubscriber (c : Client) : Client :=
  let c := c.emit (.cerr "connectSubscriber\n")
  let c :=
    if isConnected .subscriber c then
      let c := c.emit (.cerr "disconnectSubscriber\n")
      connDisconnect .subscriber c
    else c
  connConnect .subscriber c.address c.port .onSubscriberConnected c

/-- Member function `void Client::start()`. -/
def start (c : Client) : Client :=
  let c := connectPublisher c
  connectSubscriber c

/-- Member function `void Client::errorPubProxy(const std::string &)` (bound nowhere). -/
def errorPubProxy (_error : String) (c : Client) : Client :=
  let c := timerCancel .publishTimer c
  connectPublisher c

/-- Member function `void Client::errorSubProxy(const std::string &)` (bound nowhere). -/
def errorSubProxy (_error : String) (c : Client) : Client :=
  connectSubscriber c

/-- Member function `void Client::callLater(deadline_timer &timer, void (Client::*callback)())`. -/
def callLater (timer : TimerId) (callback : Method) (c : Client) : Client :=
  let c := c.emit (.cerr "callLater\n")
  let c := timerExpiresFromNow timer timeout c
  timerAsyncWait timer callback c

/-- Member function `void Client::onPublishTimeout()`. The message is formatted from `counter++` before the
connection is consulted: the text holds the old value and the counter is advanced (in
`size_t` arithmetic) on every call. -/
def onPublishTimeout (c : Client) : Client :=
  let msg := "message " ++ toString c.counter
  let c := { c with counter := (c.counter + 1) % sizeModulus }
  let c :=
    if isConnected .publisher c then
      let c := c.emit (.cerr ("pub " ++ msg ++ "\n"))
      publish msg c
    else c
  callLater .publishTimer .onPublishTimeout c

/-- Member function `void Client::onPublisherConnected(bool status, const std::string &error)`. -/
def onPublisherConnected (status : Bool) (error : String) (c : Client) : Client :=
  if !status then
    let c := c.emit (.cerr ("onPublisherConnected: can\x27t connect to redis: " ++ error ++ "\n"))
    callLater .connectPublisherTimer .connectPublisher c
  else
    let c := c.emit (.cerr "onPublisherConnected ok\n")
    callLater .publishTimer .onPublishTimeout c

/-- Member function `void Client::onSubscriberConnected(bool status, const std::string &error)`. -/
def onSubscriberConnected (status : Bool) (error : String) (c : Client) : Client :=
  if !status then
    let c := c.emit (.cerr ("onSubscriberConnected: can\x27t connect to redis: " ++ error ++ "\n"))
    callLater .connectSubscriberTimer .connectSubscriber c
  else
    let c := c.emit (.cerr "onSubscriberConnected ok\n")
    connSubscribe .subscriber channelName .onMessage c

/-- Member function `void Client::onMessage(const std::vector<char> &buf)`. -/
def onMessage (buf : List Char) (c : Client) : Client :=
  let s := String.mk buf
  c.emit (.cout ("onMessage: " ++ s ++ "\n"))

/-! ## Invoking stored handlers -/

/-- Call through a pointer to member function: `(this->*callback)()`. -/
def invokeMethod : Method → Client → Client
  | .connectPublisher => connectPublisher
  | .connectSubscriber => connectSubscriber
  | .onPublishTimeout => onPublishTimeout

/-- Call of a bound connect completion handler with `(status, error)`. -/
def invokeConnectHandler : ConnectHandler → Bool → String → Client → Client
  | .onPublisherConnected => onPublisherConnected
  | .onSubscriberConnected => onSubscriberConnected

/-- The completion handler `connect` is given for each role. -/
def connectHandler : Role → ConnectHandler
  | .publisher => .onPublisherConnected
  | .subscriber => .onSubscriberConnected

/-- The lambda that `callLater` passes to `async_wait`:
`[callback, this](const error_code &ec) { if( !ec ) (this->*callback)(); }`. -/
def waitHandler (callback : Method) (ec : ErrorCode) (c : Client) : Client :=
  if ec = .success then invokeMethod callback c else c

/-- The handler a connection calls on a transport error: the one installed by the constructor
through `boost::bind(&Client::connectPublisher, this)` (resp. `connectSubscriber`), which
drops the error text it is called with. -/
def errorHandler (r : Role) (_error : String) (c : Client) : Client :=
  match (c.conn r).errorHandler with
  | some m => invokeMethod m c
  | none => c

/-! ## The event loop -/

/-- What `main` and `ioService.run()` can make happen to the client. -/
inductive Event where
  /-- The call `client.start()` of `main`. -/
  | start
  /-- The completion of a `connect` on connection `r` is delivered with `(status, error)`. -/
  | connectCompleted (r : Role) (status : Bool) (error : String)
  /-- Connection `r` reports a transport error to its installed error handler. -/
  | transportError (r : Role) (error : String)
  /-- The oldest pending wait on timer `t` completes without error. -/
  | timerExpired (t : TimerId)
  /-- The oldest queued completion of a cancelled wait is delivered. -/
  | waitAborted
  /-- A message arrives on the subscription. -/
  | message (buf : List Char)
  /-- Connection `r` changes, on its own, the state it reports. -/
  | connectionState (r : Role) (s : ConnState)
  /-- The loop waits: `d` microseconds pass without any handler running. -/
  | elapse (d : Nat)
  deriving DecidableEq, Repr

/-- Modelled from the spec: what delivering a connect completion does to the connection
itself (spec 4.2, 5): one completion less is owed, and the connection is `Connected` after a
success and `Disconnected` after a failure. -/
def connCompleted (r : Role) (status : Bool) (c : Client) : Client :=
  let k := c.conn r
  c.setConn r
    { k with state := if status then .Connected else .Disconnected, inFlight := k.inFlight - 1 }

/-- Modelled from the spec: a state change the connection makes on its own; a session that
is no longer connected has no subscriptions (spec 3, "Channel subscription"). -/
def connSetState (r : Role) (s : ConnState) (c : Client) : Client :=
  let k := c.conn r
  c.setConn r
    { k with state := s, subscriptions := if s = .Connected then k.subscriptions else [] }

/-- The three timers. -/
def allTimers : List TimerId :=
  [.publishTimer, .connectSubscriberTimer, .connectPublisherTimer]

/-- One turn of the loop: the handler the event stands for runs to completion. -/
def dispatch (c : Client) : Event → Client
  | .start => start c
  | .connectCompleted r status error =>
      invokeConnectHandler (connectHandler r) status error (connCompleted r status c)
  | .transportError r error => errorHandler r error c
  | .timerExpired t =>
      match (c.timer t).pending with
      | [] => c
      | callback :: rest =>
          waitHandler callback .success (c.setTimer t { c.timer t with pending := rest })
  | .waitAborted =>
      match c.ioService.aborted with
      | [] => c
      | (_, callback) :: rest =>
          waitHandler callback .operation_aborted
            { c with ioService := { c.ioService with aborted := rest } }
  | .message buf => onMessage buf c
  | .connectionState r s => connSetState r s c
  | .elapse d => { c with ioService := { c.ioService with now := c.ioService.now + d } }

/-- Whether the loop can deliver the event in state `c`: a completion needs a connect in
flight, a wait completes when its timer has expired and not before, an aborted completion
must be queued, a message needs a subscription, and the loop never sleeps past the expiry of a
pending wait. -/
def enabled (c : Client) : Event → Bool
  | .start => true
  | .connectCompleted r _ _ => decide (0 < (c.conn r).inFlight)
  | .transportError _ _ => true
  | .timerExpired t =>
      !(c.timer t).pending.isEmpty && decide ((c.timer t).expiry ≤ c.ioService.now)
  | .waitAborted => !c.ioService.aborted.isEmpty
  | .message _ => !c.subscriber.subscriptions.isEmpty
  | .connectionState _ _ => true
  | .elapse d =>
      allTimers.all fun t =>
        (c.timer t).pending.isEmpty || decide (c.ioService.now + d ≤ (c.timer t).expiry)

/-- Run the handlers of a list of events, whatever the state (no check that the loop could
deliver them). -/
def run (c : Client) (evs : List Event) : Client :=
  evs.foldl dispatch c

/-- Run a list of events as the loop delivers them: `none` as soon as one is not enabled. -/
def exec (c : Client) : List Event → Option Client
  | [] => some c
  | e :: evs => if enabled c e then exec (dispatch c e) evs else none

/-! ## Reading traces -/

/-- What was recorded between state `c` and a later state `d`. -/
def issued (c d : Client) : List (Nat × Effect) :=
  d.trace.drop c.trace.length

/-- The `connect` calls on connection `r`: time, address and port of each. -/
def connects (r : Role) (tr : List (Nat × Effect)) : List (Nat × String × Nat) :=
  tr.filterMap fun x =>
    match x with
    | (t, .connect q a p _) => if q = r then some (t, a, p) else none
    | _ => none

/-- The `disconnect` calls on connection `r`: time of each. -/
def disconnects (r : Role) (tr : List (Nat × Effect)) : List Nat :=
  tr.filterMap fun x =>
    match x with
    | (t, .disconnect q) => if q = r then some t else none
    | _ => none

/-- The `publish` calls: time, connection, channel and payload of each. -/
def publishes (tr : List (Nat × Effect)) : List (Nat × Role × String × String) :=
  tr.filterMap fun x =>
    match x with
    | (t, .publish q ch p) => some (t, q, ch, p)
    | _ => none

/-- The `subscribe` calls: time, connection, channel and handler of each. -/
def subscribes (tr : List (Nat × Effect)) : List (Nat × Role × String × MessageHandler) :=
  tr.filterMap fun x =>
    match x with
    | (t, .subscribe q ch h) => some (t, q, ch, h)
    | _ => none

/-- The `async_wait` calls, the only way a timer is armed: time, timer and callback. -/
def armings (tr : List (Nat × Effect)) : List (Nat × TimerId × Method) :=
  tr.filterMap fun x =>
    match x with
    | (t, .async_wait tm m) => some (t, tm, m)
    | _ => none

/-! ## Invariants and scenarios -/

/-- The handlers stored in the state are the ones the code stores there: the error handlers
bound by the constructor, and on each timer only the callback `callLater` is ever given for
it. -/
def Wired (c : Client) : Prop :=
  c.publisher.errorHandler = some .connectPublisher ∧
  c.subscriber.errorHandler = some .connectSubscriber ∧
  (∀ m ∈ c.publishTimer.pending, m = .onPublishTimeout) ∧
  (∀ m ∈ c.connectPublisherTimer.pending, m = .connectPublisher) ∧
  (∀ m ∈ c.connectSubscriberTimer.pending, m = .connectSubscriber)

instance (c : Client) : Decidable (Wired c) := by
  unfold Wired; infer_instance

/-- Whether delivering `e` in state `c` completes a pending wait of `publishTimer`. -/
def publishTimerFires (c : Client) (e : Event) : Bool :=
  decide (e = .timerExpired .publishTimer) && !c.publishTimer.pending.isEmpty

/-- A client whose publisher connected and armed the publish timer. -/
def activePublisher : Client :=
  run (Client.new "127.0.0.1" 6379) [.start, .connectCompleted .publisher true ""]

/-- A client whose publisher became active and whose connection then dropped, on its own, to
`Disconnected`. -/
def activeThenDropped : Client :=
  run (Client.new "127.0.0.1" 6379)
    [.start, .connectCompleted .publisher true "", .connectionState .publisher .Disconnected]

/-- A client whose subscriber connected and subscribed. -/
def subscribedClient : Client :=
  run (Client.new "127.0.0.1" 6379) [.start, .connectCompleted .subscriber true ""]

/-- Two transport errors on the subscriber before any completion, then the two completions,
both successful. -/
def doubleReconnect : List Event :=
  [.transportError .subscriber "End of file", .transportError .subscriber "End of file",
   .connectCompleted .subscriber true "", .connectCompleted .subscriber true ""]

/-- The retry timer of a role. -/
def retryTimer : Role → TimerId
  | .publisher => .connectPublisherTimer
  | .subscriber => .connectSubscriberTimer

/-- The reconnect function of a role, the callback given to `callLater` for its retry timer. -/
def connectMethod : Role → Method
  | .publisher => .connectPublisher
  | .subscriber => .connectSubscriber

/-- One failed attempt as the loop sees it: the completion arrives `latency` after the attempt
was issued, with `status = false` and the text `error`; one `timeout` later the retry timer
fires. -/
def retryCycle (r : Role) (latency : Nat) (error : String) : List Event :=
  [.elapse latency, .connectCompleted r false error, .elapse timeout,
    .timerExpired (retryTimer r)]

/-- A sequence of failed attempts for role `r`, each given by its latency and error text. -/
def retrySchedule (r : Role) : List (Nat × String) → List Event
  | [] => []
  | (latency, error) :: rest => retryCycle r latency error ++ retrySchedule r rest

/-- The loop times at which the failures of `retrySchedule` are delivered, starting at
`now`. -/
def failureTimes (now : Nat) : List (Nat × String) → List Nat
  | [] => []
  | (latency, _) :: rest => (now + latency) :: failureTimes (now + latency + timeout) rest

/-- No timer has a pending wait. -/
def Idle (c : Client) : Prop :=
  c.publishTimer.pending = [] ∧ c.connectSubscriberTimer.pending = [] ∧
    c.connectPublisherTimer.pending = []

instance (c : Client) : Decidable (Idle c) := by
  unfold Idle; infer_instance

/-- The client of `main` after `client.start()`: both first connects are in flight. -/
def startedClient : Client := run (Client.new "127.0.0.1" 6379) [.start]

/-- The value of a decimal digit character. -/
def digitValue (ch : Char) : Nat := ch.toNat - 48

/-- The number a string of decimal digits denotes, most significant digit first. -/
def decimalValue (l : List Char) : Nat :=
  l.foldl (fun a ch => a * 10 + digitValue ch) 0

/-- For each completed wait of `publishTimer` while the events are run from `c`, in order:
whether the publisher reported connected when `onPublishTimeout` ran. -/
def firingLog (c : Client) : List Event → List Bool
  | [] => []
  | e :: evs =>
      (if publishTimerFires c e then [isConnected .publisher c] else []) ++
        firingLog (dispatch c e) evs

/-- The payloads published by a series of `onPublishTimeout` calls that starts with counter
value `n`: every call uses up one number, a call while connected publishes its number. -/
def heartbeatsFrom (n : Nat) : List Bool → List String
  | [] => []
  | connected :: log =>
      (if connected then ["message " ++ toString n] else []) ++
        heartbeatsFrom ((n + 1) % sizeModulus) log

/-- After `start()` the publisher connects; the connection then reports not connected while
the publish timer fires for the first time, and reports connected again for the second
firing. -/
def flickerEvents : List Event :=
  [.start, .connectCompleted .publisher true "",
   .connectionState .publisher .Disconnected, .elapse timeout, .timerExpired .publishTimer,
   .connectionState .publisher .Connected, .elapse timeout, .timerExpired .publishTimer]

/-- Events that leave the publisher's connection alone: no `start`, no completion, transport
error or state change of the publisher connection, and no firing of the publisher's retry
timer (which would call `connectPublisher`). -/
def publisherQuiet : Event → Bool
  | .start => false
  | .connectCompleted r _ _ => decide (r = .subscriber)
  | .transportError r _ => decide (r = .subscriber)
  | .timerExpired t => decide (t ≠ .connectPublisherTimer)
  | .waitAborted => true
  | .message _ => true
  | .connectionState r _ => decide (r = .subscriber)
  | .elapse _ => true

/-- The publisher is connected since loop time `t`, when the counter was `c₀`, and has
published `j` heartbeats since: the publish timer is armed for `t + (j + 1) * timeout`, which
has not passed. -/
def Beating (t c₀ j : Nat) (s : Client) : Prop :=
  Wired s ∧ s.publisher.state = .Connected ∧
  s.publishTimer = { expiry := t + (j + 1) * timeout, pending := [.onPublishTimeout] } ∧
  s.ioService.now ≤ t + (j + 1) * timeout ∧
  s.counter = (c₀ + j) % sizeModulus

/-- The loop doing nothing but deliver `n` firings of the publish timer, one `timeout`
apart. -/
def heartbeatSchedule : Nat → List Event
  | 0 => []
  | n + 1 => .elapse timeout :: .timerExpired .publishTimer :: heartbeatSchedule n

/-- The started client with the counter at `SIZE_MAX`. -/
def wrappingClient : Client :=
  { startedClient with counter := sizeModulus - 1 }

/-- Events that leave the reconnect cycle of role `r` to itself: no `start`, no transport
error on `r` and no successful completion for `r`; everything else (all events of the other
role, firings of any timer, messages, idle time) is allowed. -/
def retryQuiet (r : Role) : Event → Bool
  | .start => false
  | .connectCompleted q status _ => decide (q ≠ r) || !status
  | .transportError q _ => decide (q ≠ r)
  | _ => true

/-- The times at which the retry timer of role `r` was armed. -/
def retryArms (r : Role) (tr : List (Nat × Effect)) : List Nat :=
  tr.filterMap fun x =>
    match x with
    | (t, .async_wait tm _) => if tm = retryTimer r then some t else none
    | _ => none

/-- Whether the event is the delivery of a failed connect completion for role `r`. -/
def isFailure (r : Role) : Event → Bool
  | .connectCompleted q status _ => decide (q = r) && !status
  | _ => false

/-- Whether the event is the delivery of a successful connect completion for role `r`. -/
def isSuccess (r : Role) : Event → Bool
  | .connectCompleted q status _ => decide (q = r) && status
  | _ => false

/-- Role `r` has one connect in flight and its retry timer is not pending. -/
def Awaiting (r : Role) (c₀ s : Client) : Prop :=
  Wired s ∧ s.address = c₀.address ∧ s.port = c₀.port ∧
  (s.conn r).inFlight = 1 ∧ (s.timer (retryTimer r)).pending = []

/-- Role `r` has no connect in flight: its last attempt failed at loop time `a`, and its retry
timer is pending with expiry `a + timeout`, which has not passed. -/
def Retrying (r : Role) (c₀ : Client) (a : Nat) (s : Client) : Prop :=
  Wired s ∧ s.address = c₀.address ∧ s.port = c₀.port ∧
  (s.conn r).inFlight = 0 ∧
  s.timer (retryTimer r) = { expiry := a + timeout, pending := [connectMethod r] } ∧
  s.ioService.now ≤ a + timeout

/-- The members of the class and the counter, without the record of what has been done: two
clients with the same `members` are in the same state. -/
def Client.members (c : Client) : Client := { c with trace := [] }

/-- The commands given to the connections (`connect`, `disconnect`, `publish`, `subscribe`),
without the console output and the calls on timers. -/
def commands (tr : List (Nat × Effect)) : List (Nat × Effect) :=
  tr.filter fun x =>
    match x.2 with
    | .connect _ _ _ _ => true
    | .disconnect _ => true
    | .publish _ _ _ => true
    | .subscribe _ _ _ => true
    | _ => false

/-- The broker is unreachable for three retry intervals and then reachable: after `start()`
the publisher's connect fails at once, three times the retry timer fires one `timeout` later
and the new connect completes at once, failed twice and then successful; then the publish
timer fires twice. -/
def brokerOutage : List Event :=
  [.start,
   .connectCompleted .publisher false "Connection refused",
   .elapse timeout, .timerExpired .connectPublisherTimer,
   .connectCompleted .publisher false "Connection refused",
   .elapse timeout, .timerExpired .connectPublisherTimer,
   .connectCompleted .publisher false "Connection refused",
   .elapse timeout, .timerExpired .connectPublisherTimer,
   .connectCompleted .publisher true "",
   .elapse timeout, .timerExpired .publishTimer,
   .elapse timeout, .timerExpired .publishTimer]

/-- Each of the three timers has at most one pending wait. -/
def AtMostOne (c : Client) : Prop :=
  c.publishTimer.pending.length ≤ 1 ∧ c.connectSubscriberTimer.pending.length ≤ 1 ∧
    c.connectPublisherTimer.pending.length ≤ 1

/-- The commands given to the connection of role `r`. -/
def roleCommands (r : Role) (tr : List (Nat × Effect)) : List (Nat × Effect) :=
  tr.filter fun x =>
    match x.2 with
    | .connect q _ _ _ => decide (q = r)
    | .disconnect q => decide (q = r)
    | .publish q _ _ => decide (q = r)
    | .subscribe q _ _ => decide (q = r)
    | _ => false

/-- Events of the publisher alone: completions, transport errors and state changes of its
connection, and the expiry of its two timers. -/
def publisherEvent : Event → Bool
  | .connectCompleted r _ _ => decide (r = .publisher)
  | .transportError r _ => decide (r = .publisher)
  | .connectionState r _ => decide (r = .publisher)
  | .timerExpired t => decide (t ≠ .connectSubscriberTimer)
  | _ => false

/-- Events of the subscriber alone: completions, transport errors and state changes of its
connection, the expiry of its retry timer, and incoming messages. -/
def subscriberEvent : Event → Bool
  | .connectCompleted r _ _ => decide (r = .subscriber)
  | .transportError r _ => decide (r = .subscriber)
  | .connectionState r _ => decide (r = .subscriber)
  | .timerExpired t => decide (t = .connectSubscriberTimer)
  | .message _ => true
  | _ => false

/-- What the publisher's steps read and write: the clock, its two timers, address and port,
its connection and the counter. -/
def publisherPart (c : Client) :
    Nat × DeadlineTimer × DeadlineTimer × String × Nat × RedisAsyncClient × Nat :=
  (c.ioService.now, c.publishTimer, c.connectPublisherTimer, c.address, c.port, c.publisher,
    c.counter)

/-- What the subscriber's steps read and write: the clock, its retry timer, address and port,
and its connection. -/
def subscriberPart (c : Client) : Nat × DeadlineTimer × String × Nat × RedisAsyncClient :=
  (c.ioService.now, c.connectSubscriberTimer, c.address, c.port, c.subscriber)

/-- Events of both roles after `start()`, interleaved. -/
def interleavedEvents : List Event :=
  [.connectCompleted .subscriber true "", .connectCompleted .publisher true "",
   .transportError .subscriber "End of file", .elapse timeout, .timerExpired .publishTimer,
   .connectCompleted .subscriber false "Connection refused"]

/-- What happens to one connection, as far as its state is concerned: the two commands that
change it, the delivery of a completion, and a state change of its own. -/
inductive ConnEvent where
  | connect
  | disconnect
  | completed (status : Bool)
  | reported (s : ConnState)
  deriving DecidableEq, Repr

/-- Modelled from the spec: the connection automaton of spec section 3 (`Disconnected |
Connecting | Connected`): `connect` starts connecting, `disconnect` disconnects, a successful
completion connects, a failed one leaves the connection disconnected. -/
def connStep : ConnState → ConnEvent → ConnState
  | _, .connect => .Connecting
  | _, .disconnect => .Disconnected
  | _, .completed true => .Connected
  | _, .completed false => .Disconnected
  | _, .reported s => s

/-- The discipline of spec section 4.2: `connect` only on a connection that is not
`Connected`, `disconnect` only on one that is. -/
def connAllowed : ConnState → ConnEvent → Bool
  | s, .connect => decide (s ≠ .Connected)
  | s, .disconnect => decide (s = .Connected)
  | _, _ => true

/-- The `connect` and `disconnect` commands given to connection `r`, in order. -/
def connCommands (r : Role) (tr : List (Nat × Effect)) : List ConnEvent :=
  tr.filterMap fun x =>
    match x.2 with
    | .connect q _ _ _ => if q = r then some .connect else none
    | .disconnect q => if q = r then some .disconnect else none
    | _ => none

/-- What happens to connection `r` when one event is delivered: first what the connection
itself does (a completion, a state change), then the commands of the handler. -/
def connLogOf (r : Role) (c : Client) (e : Event) : List ConnEvent :=
  (match e with
    | .connectCompleted q status _ => if q = r then [.completed status] else []
    | .connectionState q s => if q = r then [.reported s] else []
    | _ => []) ++
  connCommands r (issued c (dispatch c e))

/-- What happens to connection `r` over a run. -/
def connLog (r : Role) (c : Client) : List Event → List ConnEvent
  | [] => []
  | e :: evs => connLogOf r c e ++ connLog r (dispatch c e) evs

/-- Whether every step of the log is allowed in the state the automaton is in. -/
def connCheck (s : ConnState) : List ConnEvent → Bool
  | [] => true
  | x :: l => connAllowed s x && connCheck (connStep s x) l

/-- The state of the automaton after a log. -/
def connAfter (s : ConnState) (l : List ConnEvent) : ConnState :=
  l.foldl connStep s

/-- The publisher has something pending that will call it again: a connect in flight, or a
wait on its retry timer, or a wait on the publish timer. -/
def publisherBusy (c : Client) : Prop :=
  0 < c.publisher.inFlight ∨ c.connectPublisherTimer.pending ≠ [] ∨
    c.publishTimer.pending ≠ []

/-- The subscriber has a connect in flight, or a wait pending on its retry timer, or is
connected with the subscription to the fixed channel issued in this session. -/
def subscriberBusy (c : Client) : Prop :=
  0 < c.subscriber.inFlight ∨ c.connectSubscriberTimer.pending ≠ [] ∨
    (c.subscriber.state = .Connected ∧
      (channelName, MessageHandler.onMessage) ∈ c.subscriber.subscriptions)

instance (c : Client) : Decidable (publisherBusy c) := by
  unfold publisherBusy; infer_instance

instance (c : Client) : Decidable (subscriberBusy c) := by
  unfold subscriberBusy; infer_instance

/-- A state change the connection makes without telling anyone: no error handler runs. -/
def silentChange : Event → Bool
  | .connectionState _ _ => true
  | _ => false

/-- What one event means for the connects of role `r`, told without the code: given the
loop time and the time of the latest failed completion of `r` whose retry wait is pending (if
any), the times of the connects the event makes the client issue on `r`, the loop time
after the event, and the latest failure still waiting. `start()` and a transport error on `r`
connect at once; a failed completion of `r` starts (or restarts) the wait; the retry timer
answers the latest failure one `timeout` after it. -/
def retryModel (r : Role) (now : Nat) (last : Option Nat) :
    Event → List Nat × Nat × Option Nat
  | .start => ([now], now, last)
  | .transportError q _ => (if q = r then [now] else [], now, last)
  | .connectCompleted q status _ =>
      ([], now, if q = r ∧ status = false then some now else last)
  | .timerExpired t =>
      if t = retryTimer r then
        (match last with
          | some a => [a + timeout]
          | none => [], now, none)
      else ([], now, last)
  | .elapse d => ([], now + d, last)
  | _ => ([], now, last)

/-- The times of the connects on `r` over a list of events, according to `retryModel`. -/
def expectedConnectTimes (r : Role) : Nat → Option Nat → List Event → List Nat
  | _, _, [] => []
  | now, last, e :: evs =>
      (retryModel r now last e).1 ++
        expectedConnectTimes r (retryModel r now last e).2.1 (retryModel r now last e).2.2 evs

/-- The state agrees with `retryModel`: the retry timer of `r` is pending exactly when a
failure is waiting, and then expires one `timeout` after that failure, which has not
passed. -/
def RetryState (r : Role) (c₀ : Client) (last : Option Nat) (s : Client) : Prop :=
  Wired s ∧ s.address = c₀.address ∧ s.port = c₀.port ∧
  match last with
  | none => (s.timer (retryTimer r)).pending = []
  | some a =>
      s.timer (retryTimer r) = { expiry := a + timeout, pending := [connectMethod r] } ∧
        s.ioService.now ≤ a + timeout

/-- The client of `main` after `start()` and one transport error on the publisher before any
completion: two publisher connects are in flight. -/
def twoInFlight : Client :=
  run (Client.new "127.0.0.1" 6379) [.start, .transportError .publisher "End of file"]

/-- Both connects in flight fail, 300 microseconds apart; one `timeout` after the second
failure the retry timer fires. -/
def overlappingFailures : List Event :=
  [.connectCompleted .publisher false "Connection refused", .elapse 300,
   .connectCompleted .publisher false "Connection refused", .elapse timeout,
   .timerExpired .connectPublisherTimer]

/-- Both connects in flight succeed, the second half a second after the first; then the
publish timer fires twice, one `timeout` apart. -/
def staleSuccess : List Event :=
  [.connectCompleted .publisher true "", .elapse 500000,
   .connectCompleted .publisher true "", .elapse timeout, .timerExpired .publishTimer,
   .elapse timeout, .timerExpired .publishTimer]

/-- After the publisher connect has completed: the subscriber connect fails, is retried and
succeeds, the subscriber gets a transport error, the publisher connection reports `Connected`
once more, and the publish timer fires twice, one `timeout` apart. -/
def interleavedHeartbeats : List Event :=
  [.connectCompleted .subscriber false "Connection refused", .elapse timeout,
   .timerExpired .publishTimer, .timerExpired .connectSubscriberTimer,
   .connectionState .publisher .Connected, .elapse 400000,
   .connectCompleted .subscriber true "", .elapse 600000, .timerExpired .publishTimer,
   .transportError .subscriber "End of file"]

/-! ## The member functions in closed form -/

/-- When the trace of `d` is the trace of `c` followed by `l`, what was issued between them is
`l`. -/
theorem issued_of_trace_eq {c d : Client} {l : List (Nat × Effect)}
    (h : d.trace = c.trace ++ l) : issued c d = l := by
  simp [issued, h]

/-- Closed form of `connectPublisher`: the state and the trace it produces, by the branch of the
`isConnected()` guard. -/
theorem connectPublisher_eq (c : Client) :
    connectPublisher c =
      if c.publisher.state = .Connected then
        { c with
          ioService :=
            { c.ioService with
              aborted := c.ioService.aborted ++
                c.publishTimer.pending.map fun m => (TimerId.publishTimer, m) }
          publishTimer := { c.publishTimer with pending := [] }
          publisher :=
            { c.publisher with
              state := .Connecting, inFlight := c.publisher.inFlight + 1, subscriptions := [] }
          trace := c.trace ++
            [(c.ioService.now, .cerr "connectPublisher\n"),
             (c.ioService.now, .cerr "disconnectPublisher\n"),
             (c.ioService.now, .disconnect .publisher),
             (c.ioService.now, .cancel .publishTimer),
             (c.ioService.now, .connect .publisher c.address c.port .onPublisherConnected)] }
      else
        { c with
          publisher :=
            { c.publisher with
              state := .Connecting, inFlight := c.publisher.inFlight + 1, subscriptions := [] }
          trace := c.trace ++
            [(c.ioService.now, .cerr "connectPublisher\n"),
             (c.ioService.now, .connect .publisher c.address c.port .onPublisherConnected)] } := by
  unfold connectPublisher
  by_cases h : c.publisher.state = .Connected <;>
    simp [h, isConnected, connDisconnect, timerCancel, connConnect, Client.emit, Client.setConn,
      Client.setTimer, Client.conn, Client.timer, Client.abort]

/-- Closed form of `connectSubscriber`. -/
theorem connectSubscriber_eq (c : Client) :
    connectSubscriber c =
      { c with
        subscriber :=
          { c.subscriber with
            state := .Connecting, inFlight := c.subscriber.inFlight + 1, subscriptions := [] }
        trace := c.trace ++
          if c.subscriber.state = .Connected then
            [(c.ioService.now, .cerr "connectSubscriber\n"),
             (c.ioService.now, .cerr "disconnectSubscriber\n"),
             (c.ioService.now, .disconnect .subscriber),
             (c.ioService.now, .connect .subscriber c.address c.port .onSubscriberConnected)]
          else
            [(c.ioService.now, .cerr "connectSubscriber\n"),
             (c.ioService.now, .connect .subscriber c.address c.port .onSubscriberConnected)] } := by
  unfold connectSubscriber
  by_cases h : c.subscriber.state = .Connected <;>
    simp [h, isConnected, connDisconnect, connConnect, Client.emit, Client.setConn, Client.conn]

/-- Closed form of `callLater`: the timer ends with the single wait for `m`, expiring `timeout`
from now; the waits pending before are aborted. -/
theorem callLater_eq (t : TimerId) (m : Method) (c : Client) :
    callLater t m c =
      { c.setTimer t { expiry := c.ioService.now + timeout, pending := [m] } with
        ioService :=
          { c.ioService with
            aborted := c.ioService.aborted ++ (c.timer t).pending.map fun k => (t, k) }
        trace := c.trace ++
          [(c.ioService.now, .cerr "callLater\n"),
           (c.ioService.now, .expires_from_now t timeout),
           (c.ioService.now, .async_wait t m)] } := by
  cases t <;>
    simp [callLater, timerExpiresFromNow, timerAsyncWait, Client.emit, Client.setTimer,
      Client.timer, Client.abort]

/-- Closed form of `onPublishTimeout`. -/
theorem onPublishTimeout_eq (c : Client) :
    onPublishTimeout c =
      { c with
        ioService :=
          { c.ioService with
            aborted := c.ioService.aborted ++
              c.publishTimer.pending.map fun m => (TimerId.publishTimer, m) }
        publishTimer := { expiry := c.ioService.now + timeout, pending := [.onPublishTimeout] }
        counter := (c.counter + 1) % sizeModulus
        trace := c.trace ++
          ((if c.publisher.state = .Connected then
              [(c.ioService.now, Effect.cerr ("pub " ++ ("message " ++ toString c.counter) ++ "\n")),
               (c.ioService.now,
                 Effect.publish .publisher channelName ("message " ++ toString c.counter))]
            else []) ++
           [(c.ioService.now, .cerr "callLater\n"),
            (c.ioService.now, .expires_from_now .publishTimer timeout),
            (c.ioService.now, .async_wait .publishTimer .onPublishTimeout)]) } := by
  unfold onPublishTimeout
  by_cases h : c.publisher.state = .Connected <;>
    simp [h, isConnected, publish, connPublish, callLater_eq, Client.emit, Client.setTimer,
      Client.conn, Client.timer]

/-- Closed form of `onPublisherConnected`, by the value of `status`. -/
theorem onPublisherConnected_eq (status : Bool) (error : String) (c : Client) :
    onPublisherConnected status error c =
      if status then
        { c with
          ioService :=
            { c.ioService with
              aborted := c.ioService.aborted ++
                c.publishTimer.pending.map fun m => (TimerId.publishTimer, m) }
          publishTimer := { expiry := c.ioService.now + timeout, pending := [.onPublishTimeout] }
          trace := c.trace ++
            [(c.ioService.now, .cerr "onPublisherConnected ok\n"),
             (c.ioService.now, .cerr "callLater\n"),
             (c.ioService.now, .expires_from_now .publishTimer timeout),
             (c.ioService.now, .async_wait .publishTimer .onPublishTimeout)] }
      else
        { c with
          ioService :=
            { c.ioService with
              aborted := c.ioService.aborted ++
                c.connectPublisherTimer.pending.map fun m => (TimerId.connectPublisherTimer, m) }
          connectPublisherTimer :=
            { expiry := c.ioService.now + timeout, pending := [.connectPublisher] }
          trace := c.trace ++
            [(c.ioService.now,
               .cerr ("onPublisherConnected: can\x27t connect to redis: " ++ error ++ "\n")),
             (c.ioService.now, .cerr "callLater\n"),
             (c.ioService.now, .expires_from_now .connectPublisherTimer timeout),
             (c.ioService.now, .async_wait .connectPublisherTimer .connectPublisher)] } := by
  cases status <;>
    simp [onPublisherConnected, callLater_eq, Client.emit, Client.setTimer, Client.timer]

/-- Closed form of `onSubscriberConnected`, by the value of `status`. -/
theorem onSubscriberConnected_eq (status : Bool) (error : String) (c : Client) :
    onSubscriberConnected status error c =
      if status then
        { c with
          subscriber :=
            { c.subscriber with
              subscriptions := c.subscriber.subscriptions ++ [(channelName, .onMessage)] }
          trace := c.trace ++
            [(c.ioService.now, .cerr "onSubscriberConnected ok\n"),
             (c.ioService.now, .subscribe .subscriber channelName .onMessage)] }
      else
        { c with
          ioService :=
            { c.ioService with
              aborted := c.ioService.aborted ++
                c.connectSubscriberTimer.pending.map fun m =>
                  (TimerId.connectSubscriberTimer, m) }
          connectSubscriberTimer :=
            { expiry := c.ioService.now + timeout, pending := [.connectSubscriber] }
          trace := c.trace ++
            [(c.ioService.now,
               .cerr ("onSubscriberConnected: can\x27t connect to redis: " ++ error ++ "\n")),
             (c.ioService.now, .cerr "callLater\n"),
             (c.ioService.now, .expires_from_now .connectSubscriberTimer timeout),
             (c.ioService.now, .async_wait .connectSubscriberTimer .connectSubscriber)] } := by
  cases status <;>
    simp [onSubscriberConnected, callLater_eq, connSubscribe, Client.emit, Client.setTimer,
      Client.timer, Client.setConn, Client.conn]

/-! ## Single steps -/

/-- C7: a reconnect attempt (`connectPublisher`, resp. `connectSubscriber`) issues exactly one
`connect` to the configured address and port, preceded by a `disconnect` of that role's
connection exactly when the connection reports connected; for the publisher the pending waits
of `publishTimer` are cancelled (before the `connect`) in exactly that case and the timer is
untouched otherwise; the other timers are untouched, and the subscriber attempt touches no
timer and nothing of the `io_service`. -/
theorem connect_attempt_guarded (c : Client) :
    ((connectPublisher c).trace = c.trace ++
        (if isConnected .publisher c then
          [(c.ioService.now, .cerr "connectPublisher\n"),
           (c.ioService.now, .cerr "disconnectPublisher\n"),
           (c.ioService.now, .disconnect .publisher),
           (c.ioService.now, .cancel .publishTimer),
           (c.ioService.now, .connect .publisher c.address c.port .onPublisherConnected)]
        else
          [(c.ioService.now, .cerr "connectPublisher\n"),
           (c.ioService.now, .connect .publisher c.address c.port .onPublisherConnected)])) ∧
    connects .publisher (issued c (connectPublisher c)) = [(c.ioService.now, c.address, c.port)] ∧
    disconnects .publisher (issued c (connectPublisher c)) =
      (if isConnected .publisher c then [c.ioService.now] else []) ∧
    (connectPublisher c).publishTimer =
      (if isConnected .publisher c then { c.publishTimer with pending := [] }
       else c.publishTimer) ∧
    (connectPublisher c).ioService.aborted = c.ioService.aborted ++
      (if isConnected .publisher c then
        c.publishTimer.pending.map fun m => (TimerId.publishTimer, m)
       else []) ∧
    (connectPublisher c).connectPublisherTimer = c.connectPublisherTimer ∧
    (connectPublisher c).connectSubscriberTimer = c.connectSubscriberTimer ∧
    ((connectSubscriber c).trace = c.trace ++
        (if isConnected .subscriber c then
          [(c.ioService.now, .cerr "connectSubscriber\n"),
           (c.ioService.now, .cerr "disconnectSubscriber\n"),
           (c.ioService.now, .disconnect .subscriber),
           (c.ioService.now, .connect .subscriber c.address c.port .onSubscriberConnected)]
        else
          [(c.ioService.now, .cerr "connectSubscriber\n"),
           (c.ioService.now, .connect .subscriber c.address c.port .onSubscriberConnected)])) ∧
    connects .subscriber (issued c (connectSubscriber c)) =
      [(c.ioService.now, c.address, c.port)] ∧
    disconnects .subscriber (issued c (connectSubscriber c)) =
      (if isConnected .subscriber c then [c.ioService.now] else []) ∧
    (connectSubscriber c).publishTimer = c.publishTimer ∧
    (connectSubscriber c).connectPublisherTimer = c.connectPublisherTimer ∧
    (connectSubscriber c).connectSubscriberTimer = c.connectSubscriberTimer ∧
    (connectSubscriber c).ioService = c.ioService := by
  have hp := connectPublisher_eq c
  have hs := connectSubscriber_eq c
  by_cases h1 : c.publisher.state = .Connected <;>
  by_cases h2 : c.subscriber.state = .Connected <;>
    simp [hp, hs, h1, h2, issued, isConnected, Client.conn, connects, disconnects]

/-- C3: handling a successful publisher connect completion issues no `publish` and no
`connect`, leaves the heartbeat counter unchanged, and leaves `publishTimer` with exactly one
pending wait, of one second from now, whose callback is `onPublishTimeout`; the waits that
were pending on `publishTimer` are cancelled (queued for completion with
`operation_aborted`). -/
theorem publisher_connect_success_arms_publish_timer (c : Client) (error : String) :
    (onPublisherConnected true error c).trace = c.trace ++
      [(c.ioService.now, .cerr "onPublisherConnected ok\n"),
       (c.ioService.now, .cerr "callLater\n"),
       (c.ioService.now, .expires_from_now .publishTimer (seconds 1)),
       (c.ioService.now, .async_wait .publishTimer .onPublishTimeout)] ∧
    publishes (issued c (onPublisherConnected true error c)) = [] ∧
    connects .publisher (issued c (onPublisherConnected true error c)) = [] ∧
    connects .subscriber (issued c (onPublisherConnected true error c)) = [] ∧
    (onPublisherConnected true error c).counter = c.counter ∧
    (onPublisherConnected true error c).publishTimer =
      { expiry := c.ioService.now + seconds 1, pending := [.onPublishTimeout] } ∧
    (onPublisherConnected true error c).ioService.aborted = c.ioService.aborted ++
      c.publishTimer.pending.map fun m => (TimerId.publishTimer, m) := by
  simp [onPublisherConnected_eq, issued, publishes, connects, timeout]

/-- C4: a firing of the publish timer (`onPublishTimeout`) with counter value `N` issues
exactly one `publish`, on the publisher, on the fixed channel, with payload `"message "`
followed by the decimal rendering of `N`, when the publisher reports connected, and no
`publish` when it does not; in both cases `publishTimer` is re-armed with a wait of one second
from now whose callback is `onPublishTimeout`. -/
theorem publish_timeout_publishes_when_connected (c : Client) :
    publishes (issued c (onPublishTimeout c)) =
      (if isConnected .publisher c then
        [(c.ioService.now, .publisher, "unique-redis-channel-name-example",
          "message " ++ toString c.counter)]
       else []) ∧
    armings (issued c (onPublishTimeout c)) =
      [(c.ioService.now, .publishTimer, .onPublishTimeout)] ∧
    (onPublishTimeout c).publishTimer =
      { expiry := c.ioService.now + seconds 1, pending := [.onPublishTimeout] } := by
  by_cases h : c.publisher.state = .Connected <;>
    simp [onPublishTimeout_eq, h, issued, isConnected, Client.conn, publishes, armings, timeout,
      channelName]

/-- C6: handling a successful subscriber connect completion issues, in the same step, exactly
one `subscribe`, on the subscriber connection, for the channel
`"unique-redis-channel-name-example"` with `onMessage` as handler; it arms no timer (the three
timers and the `io_service` are unchanged) and issues no `connect` and no `disconnect`. -/
theorem subscriber_connect_success_subscribes (c : Client) (error : String) :
    (onSubscriberConnected true error c).trace = c.trace ++
      [(c.ioService.now, .cerr "onSubscriberConnected ok\n"),
       (c.ioService.now,
         .subscribe .subscriber "unique-redis-channel-name-example" .onMessage)] ∧
    subscribes (issued c (onSubscriberConnected true error c)) =
      [(c.ioService.now, .subscriber, "unique-redis-channel-name-example", .onMessage)] ∧
    armings (issued c (onSubscriberConnected true error c)) = [] ∧
    (∀ r, connects r (issued c (onSubscriberConnected true error c)) = []) ∧
    (∀ r, disconnects r (issued c (onSubscriberConnected true error c)) = []) ∧
    (onSubscriberConnected true error c).publishTimer = c.publishTimer ∧
    (onSubscriberConnected true error c).connectPublisherTimer = c.connectPublisherTimer ∧
    (onSubscriberConnected true error c).connectSubscriberTimer = c.connectSubscriberTimer ∧
    (onSubscriberConnected true error c).ioService = c.ioService := by
  simp [onSubscriberConnected_eq, issued, subscribes, armings, connects, disconnects,
    channelName]

/-! ## Traces only grow; the stored handlers stay the wired ones -/

/-- Calling a member function only appends to the trace. -/
theorem invokeMethod_trace (m : Method) (c : Client) :
    ∃ l, (invokeMethod m c).trace = c.trace ++ l := by
  cases m
  · simp only [invokeMethod, connectPublisher_eq]
    split_ifs <;> exact ⟨_, rfl⟩
  · simp only [invokeMethod, connectSubscriber_eq]
    exact ⟨_, rfl⟩
  · simp only [invokeMethod, onPublishTimeout_eq]
    exact ⟨_, rfl⟩

/-- Delivering an event only appends to the trace. -/
theorem dispatch_trace (c : Client) (e : Event) :
    ∃ l, (dispatch c e).trace = c.trace ++ l := by
  cases e with
  | start =>
      obtain ⟨l₁, h₁⟩ := invokeMethod_trace .connectPublisher c
      obtain ⟨l₂, h₂⟩ := invokeMethod_trace .connectSubscriber (connectPublisher c)
      refine ⟨l₁ ++ l₂, ?_⟩
      simp only [invokeMethod] at h₁ h₂
      simp [dispatch, start, h₂, h₁]
  | connectCompleted r status error =>
      cases r <;> cases status <;>
        simp [dispatch, connectHandler, invokeConnectHandler, connCompleted,
          onPublisherConnected_eq, onSubscriberConnected_eq, Client.setConn, Client.conn]
  | transportError r error =>
      simp only [dispatch, errorHandler]
      split
      · exact invokeMethod_trace _ _
      · exact ⟨[], by simp⟩
  | timerExpired t =>
      simp only [dispatch]
      split
      · exact ⟨[], by simp⟩
      · rename_i callback rest _
        obtain ⟨l, h⟩ := invokeMethod_trace callback
          (c.setTimer t { c.timer t with pending := rest })
        refine ⟨l, ?_⟩
        rw [waitHandler, if_pos rfl, h]
        cases t <;> rfl
  | waitAborted =>
      simp only [dispatch]
      split
      · exact ⟨[], by simp⟩
      · exact ⟨[], by simp [waitHandler]⟩
  | message buf => exact ⟨_, rfl⟩
  | connectionState r s => cases r <;> exact ⟨[], by simp [dispatch, connSetState, Client.setConn]⟩
  | elapse d => exact ⟨[], by simp [dispatch]⟩

/-- Running events only appends to the trace. -/
theorem run_trace (evs : List Event) : ∀ c : Client, ∃ l, (run c evs).trace = c.trace ++ l := by
  induction evs with
  | nil => intro c; exact ⟨[], by simp [run]⟩
  | cons e evs ih =>
      intro c
      obtain ⟨l₁, h₁⟩ := dispatch_trace c e
      obtain ⟨l₂, h₂⟩ := ih (dispatch c e)
      refine ⟨l₁ ++ l₂, ?_⟩
      simp only [run, List.foldl_cons] at h₂ ⊢
      rw [h₂, h₁, List.append_assoc]

/-- What a run issues is what its first event issues followed by what the rest issues. -/
theorem issued_run_cons (c : Client) (e : Event) (evs : List Event) :
    issued c (run c (e :: evs)) =
      issued c (dispatch c e) ++ issued (dispatch c e) (run (dispatch c e) evs) := by
  obtain ⟨l₁, h₁⟩ := dispatch_trace c e
  obtain ⟨l₂, h₂⟩ := run_trace evs (dispatch c e)
  have h₃ : (run c (e :: evs)).trace = c.trace ++ (l₁ ++ l₂) := by
    simp only [run, List.foldl_cons] at h₂ ⊢
    rw [h₂, h₁, List.append_assoc]
  rw [issued_of_trace_eq h₃, issued_of_trace_eq h₁, issued_of_trace_eq h₂]

/-- A run the loop can deliver ends in the state `run` computes. -/
theorem exec_eq_run (evs : List Event) : ∀ {c d : Client}, exec c evs = some d →
    d = run c evs := by
  induction evs with
  | nil => intro c d h; simpa [exec, run] using h.symm
  | cons e evs ih =>
      intro c d h
      rw [exec] at h
      split_ifs at h
      exact ih h

/-- The constructor wires the handlers. -/
theorem wired_new (address : String) (port : Nat) : Wired (Client.new address port) := by
  simp [Wired, Client.new, connInstallErrorHandler, Client.emit, Client.setConn, Client.conn]

/-- The wiring is kept by `connectPublisher`. -/
theorem wired_connectPublisher {c : Client} (h : Wired c) : Wired (connectPublisher c) := by
  obtain ⟨h1, h2, h3, h4, h5⟩ := h
  rw [connectPublisher_eq]
  split_ifs
  · exact ⟨h1, h2, by simp, h4, h5⟩
  · exact ⟨h1, h2, h3, h4, h5⟩

/-- The wiring is kept by `connectSubscriber`. -/
theorem wired_connectSubscriber {c : Client} (h : Wired c) : Wired (connectSubscriber c) := by
  obtain ⟨h1, h2, h3, h4, h5⟩ := h
  rw [connectSubscriber_eq]
  exact ⟨h1, h2, h3, h4, h5⟩

/-- The wiring is kept by `onPublishTimeout`. -/
theorem wired_onPublishTimeout {c : Client} (h : Wired c) : Wired (onPublishTimeout c) := by
  obtain ⟨h1, h2, _, h4, h5⟩ := h
  rw [onPublishTimeout_eq]
  exact ⟨h1, h2, by simp, h4, h5⟩

/-- The wiring is kept by `onPublisherConnected`. -/
theorem wired_onPublisherConnected {c : Client} (h : Wired c) (status : Bool) (error : String) :
    Wired (onPublisherConnected status error c) := by
  obtain ⟨h1, h2, h3, h4, h5⟩ := h
  rw [onPublisherConnected_eq]
  split_ifs
  · exact ⟨h1, h2, by simp, h4, h5⟩
  · exact ⟨h1, h2, h3, by simp, h5⟩

/-- The wiring is kept by `onSubscriberConnected`. -/
theorem wired_onSubscriberConnected {c : Client} (h : Wired c) (status : Bool)
    (error : String) : Wired (onSubscriberConnected status error c) := by
  obtain ⟨h1, h2, h3, h4, h5⟩ := h
  rw [onSubscriberConnected_eq]
  split_ifs
  · exact ⟨h1, h2, h3, h4, h5⟩
  · exact ⟨h1, h2, h3, h4, by simp⟩

/-- The wiring is kept by every event. -/
theorem wired_dispatch {c : Client} (h : Wired c) (e : Event) : Wired (dispatch c e) := by
  have h0 := h
  obtain ⟨h1, h2, h3, h4, h5⟩ := h
  cases e with
  | start => exact wired_connectSubscriber (wired_connectPublisher h0)
  | connectCompleted r status error =>
      cases r
      · exact wired_onPublisherConnected (c := connCompleted .publisher status c)
          ⟨h1, h2, h3, h4, h5⟩ status error
      · exact wired_onSubscriberConnected (c := connCompleted .subscriber status c)
          ⟨h1, h2, h3, h4, h5⟩ status error
  | transportError r error =>
      cases r
      · simp only [dispatch, errorHandler, Client.conn, h1, invokeMethod]
        exact wired_connectPublisher h0
      · simp only [dispatch, errorHandler, Client.conn, h2, invokeMethod]
        exact wired_connectSubscriber h0
  | timerExpired t =>
      cases t
      · simp only [dispatch, Client.timer]
        split
        · exact h0
        · rename_i callback rest hp
          have hc : callback = .onPublishTimeout := h3 _ (by simp [hp])
          subst hc
          exact wired_onPublishTimeout (c := c.setTimer .publishTimer _)
            ⟨h1, h2, fun m hm => h3 m (by rw [hp]; exact List.mem_cons_of_mem _ hm), h4, h5⟩
      · simp only [dispatch, Client.timer]
        split
        · exact h0
        · rename_i callback rest hp
          have hc : callback = .connectSubscriber := h5 _ (by simp [hp])
          subst hc
          exact wired_connectSubscriber (c := c.setTimer .connectSubscriberTimer _)
            ⟨h1, h2, h3, h4, fun m hm => h5 m (by rw [hp]; exact List.mem_cons_of_mem _ hm)⟩
      · simp only [dispatch, Client.timer]
        split
        · exact h0
        · rename_i callback rest hp
          have hc : callback = .connectPublisher := h4 _ (by simp [hp])
          subst hc
          exact wired_connectPublisher (c := c.setTimer .connectPublisherTimer _)
            ⟨h1, h2, h3, fun m hm => h4 m (by rw [hp]; exact List.mem_cons_of_mem _ hm), h5⟩
  | waitAborted =>
      simp only [dispatch]
      split
      · exact h0
      · exact ⟨h1, h2, h3, h4, h5⟩
  | message buf => exact ⟨h1, h2, h3, h4, h5⟩
  | connectionState r s => cases r <;> exact ⟨h1, h2, h3, h4, h5⟩
  | elapse d => exact ⟨h1, h2, h3, h4, h5⟩

/-- The wiring is kept by every run. -/
theorem wired_run (evs : List Event) : ∀ {c : Client}, Wired c → Wired (run c evs) := by
  induction evs with
  | nil => intro c h; exact h
  | cons e evs ih => intro c h; exact ih (wired_dispatch h e)

/-! ## Transport errors -/

/-- C2 (as stated, refuted): the publisher is active (last connect completed successfully, a
publish-timer wait pending) and the connection reports not connected when its error handler
runs: the handler is `connectPublisher`, whose `publishTimer.cancel()` sits inside the
`isConnected()` guard, so the publish-timer wait is still pending afterwards. -/
theorem error_handler_keeps_publish_wait_when_not_connected :
    exec (Client.new "127.0.0.1" 6379)
        [.start, .connectCompleted .publisher true "",
         .connectionState .publisher .Disconnected] = some activeThenDropped ∧
    activeThenDropped.publisher.errorHandler = some .connectPublisher ∧
    activeThenDropped.publishTimer.pending = [.onPublishTimeout] ∧
    isConnected .publisher activeThenDropped = false ∧
    (errorHandler .publisher "End of file" activeThenDropped).publishTimer.pending =
      [.onPublishTimeout] ∧
    (errorHandler .publisher "End of file" activeThenDropped).publishTimer.pending ≠ [] := by
  refine ⟨by rfl, by decide, by decide, by decide, by decide, by decide⟩

/-- C2 (amended): invoking the error handler the constructor installed on the publisher
connection, for any error text, issues exactly one `connect` to the configured address and
port in the same step and arms no timer; when the connection reports connected it is
disconnected first and `publishTimer` is left with no pending wait, and when it reports not
connected `publishTimer` is left as it was. -/
theorem publisher_error_handler_reconnects (c : Client) (error : String)
    (h : c.publisher.errorHandler = (Client.new c.address c.port).publisher.errorHandler) :
    (errorHandler .publisher error c).trace = c.trace ++
        (if isConnected .publisher c then
          [(c.ioService.now, .cerr "connectPublisher\n"),
           (c.ioService.now, .cerr "disconnectPublisher\n"),
           (c.ioService.now, .disconnect .publisher),
           (c.ioService.now, .cancel .publishTimer),
           (c.ioService.now, .connect .publisher c.address c.port .onPublisherConnected)]
        else
          [(c.ioService.now, .cerr "connectPublisher\n"),
           (c.ioService.now, .connect .publisher c.address c.port .onPublisherConnected)]) ∧
    connects .publisher (issued c (errorHandler .publisher error c)) =
      [(c.ioService.now, c.address, c.port)] ∧
    armings (issued c (errorHandler .publisher error c)) = [] ∧
    (errorHandler .publisher error c).publishTimer =
      (if isConnected .publisher c then { c.publishTimer with pending := [] }
       else c.publishTimer) ∧
    (errorHandler .publisher error c).connectPublisherTimer = c.connectPublisherTimer ∧
    (errorHandler .publisher error c).connectSubscriberTimer = c.connectSubscriberTimer := by
  have h' : c.publisher.errorHandler = some .connectPublisher := by
    rw [h]; simp [Client.new, connInstallErrorHandler, Client.emit, Client.setConn, Client.conn]
  have hp := connectPublisher_eq c
  by_cases h1 : c.publisher.state = .Connected <;>
    simp [errorHandler, h', invokeMethod, hp, h1, issued, isConnected, Client.conn, connects,
      armings]

/-- C2 (amended), at the active publisher of the scenario. -/
theorem publisher_error_handler_reconnects_witness :
    activePublisher.publisher.errorHandler =
        (Client.new activePublisher.address activePublisher.port).publisher.errorHandler ∧
    isConnected .publisher activePublisher = true ∧
    activePublisher.publishTimer.pending = [.onPublishTimeout] ∧
    connects .publisher (issued activePublisher
        (errorHandler .publisher "End of file" activePublisher)) =
      [(activePublisher.ioService.now, activePublisher.address, activePublisher.port)] :=
  ⟨by decide, by decide, by decide,
    (publisher_error_handler_reconnects activePublisher "End of file" (by decide)).2.1⟩

/-- C9 (as stated, refuted): the subscriber is connected and subscribed, its error handler
runs twice before any completion, and both completions are then delivered as successful: two
`subscribe` calls are issued, not one. -/
theorem double_reconnect_subscribes_twice :
    exec (Client.new "127.0.0.1" 6379) [.start, .connectCompleted .subscriber true ""] =
      some subscribedClient ∧
    isConnected .subscriber subscribedClient = true ∧
    subscribedClient.subscriber.subscriptions = [(channelName, .onMessage)] ∧
    exec subscribedClient doubleReconnect = some (run subscribedClient doubleReconnect) ∧
    subscribes (issued subscribedClient (run subscribedClient doubleReconnect)) =
      [(0, .subscriber, channelName, .onMessage), (0, .subscriber, channelName, .onMessage)] ∧
    (subscribes (issued subscribedClient (run subscribedClient doubleReconnect))).length ≠ 1 := by
  refine ⟨by rfl, by decide, by decide, by rfl, by decide, by decide⟩

/-- C9 (amended): the installed subscriber error handler issues one `connect` in the same
step and arms no timer, and a successful completion issues one `subscribe` on the fixed
channel; when the error handler runs twice before any completion is delivered, two connects
are issued, both completions can be delivered, and two successful completions issue two
`subscribe` calls (one per completion: no completion is recognised as stale). -/
theorem subscriber_reconnect_resubscribes_per_completion (c : Client) (e₁ e₂ x y : String)
    (h : c.subscriber.errorHandler = (Client.new c.address c.port).subscriber.errorHandler) :
    connects .subscriber (issued c (errorHandler .subscriber e₁ c)) =
      [(c.ioService.now, c.address, c.port)] ∧
    armings (issued c (errorHandler .subscriber e₁ c)) = [] ∧
    subscribes (issued c (dispatch c (.connectCompleted .subscriber true x))) =
      [(c.ioService.now, .subscriber, channelName, .onMessage)] ∧
    exec c [.transportError .subscriber e₁, .transportError .subscriber e₂,
        .connectCompleted .subscriber true x, .connectCompleted .subscriber true y] =
      some (run c [.transportError .subscriber e₁, .transportError .subscriber e₂,
        .connectCompleted .subscriber true x, .connectCompleted .subscriber true y]) ∧
    connects .subscriber (issued c (run c [.transportError .subscriber e₁,
        .transportError .subscriber e₂, .connectCompleted .subscriber true x,
        .connectCompleted .subscriber true y])) =
      [(c.ioService.now, c.address, c.port), (c.ioService.now, c.address, c.port)] ∧
    subscribes (issued c (run c [.transportError .subscriber e₁,
        .transportError .subscriber e₂, .connectCompleted .subscriber true x,
        .connectCompleted .subscriber true y])) =
      [(c.ioService.now, .subscriber, channelName, .onMessage),
       (c.ioService.now, .subscriber, channelName, .onMessage)] := by
  have h' : c.subscriber.errorHandler = some .connectSubscriber := by
    rw [h]; simp [Client.new, connInstallErrorHandler, Client.emit, Client.setConn, Client.conn]
  by_cases h1 : c.subscriber.state = .Connected <;>
    simp [exec, enabled, run, dispatch, errorHandler, h', invokeMethod, connectSubscriber_eq, h1,
      issued, Client.conn, connects, armings, subscribes, connectHandler, invokeConnectHandler,
      connCompleted, onSubscriberConnected_eq, Client.setConn]

/-- C9 (amended), at the subscribed client of the scenario. -/
theorem subscriber_reconnect_resubscribes_per_completion_witness :
    subscribedClient.subscriber.errorHandler =
        (Client.new subscribedClient.address subscribedClient.port).subscriber.errorHandler ∧
    armings (issued subscribedClient
        (errorHandler .subscriber "End of file" subscribedClient)) = [] :=
  ⟨by decide,
    (subscriber_reconnect_resubscribes_per_completion subscribedClient
      "End of file" "End of file" "" "" (by decide)).2.1⟩

/-! ## Failed connects are retried one `timeout` later -/

/-- One failed attempt, delivered on its own from a state with a connect in flight and no timer
pending: the loop can deliver the four events, the retry timer is armed when the failure arrives
and the next connect is issued `timeout` later; the state reached is again of that kind. -/
theorem retry_cycle (r : Role) (c : Client) (latency : Nat) (error : String)
    (hflight : 0 < (c.conn r).inFlight) (hidle : Idle c) :
    (∀ rest, exec c (retryCycle r latency error ++ rest) =
        exec (run c (retryCycle r latency error)) rest) ∧
      0 < ((run c (retryCycle r latency error)).conn r).inFlight ∧
      Idle (run c (retryCycle r latency error)) ∧
      (run c (retryCycle r latency error)).address = c.address ∧
      (run c (retryCycle r latency error)).port = c.port ∧
      (run c (retryCycle r latency error)).ioService.now =
        c.ioService.now + latency + timeout ∧
      connects r (issued c (run c (retryCycle r latency error))) =
        [(c.ioService.now + latency + timeout, c.address, c.port)] ∧
      armings (issued c (run c (retryCycle r latency error))) =
        [(c.ioService.now + latency, retryTimer r, connectMethod r)] := by
  obtain ⟨h1, h2, h3⟩ := hidle
  cases r
  · simp only [Client.conn] at hflight
    simp [retryCycle, run, exec, enabled, dispatch, allTimers, Client.timer, h1, h2, h3, Client.conn, hflight,
        connectHandler, invokeConnectHandler, connCompleted, Client.setConn,
        onPublisherConnected_eq, retryTimer, waitHandler, invokeMethod, connectPublisher_eq,
        Client.setTimer, Idle, issued, connects, armings, connectMethod]
  · simp only [Client.conn] at hflight
    simp [retryCycle, run, exec, enabled, dispatch, allTimers, Client.timer, h1, h2, h3, Client.conn, hflight,
        connectHandler, invokeConnectHandler, connCompleted, Client.setConn,
        onSubscriberConnected_eq, retryTimer, waitHandler, invokeMethod, connectSubscriber_eq,
        Client.setTimer, Idle, issued, connects, armings, connectMethod]

/-- Running a concatenation is running the parts in turn. -/
theorem run_append (c : Client) (l₁ l₂ : List Event) :
    run c (l₁ ++ l₂) = run (run c l₁) l₂ := by
  simp [run, List.foldl_append]

/-- What a concatenated run issues is what its parts issue, in order. -/
theorem issued_run_append (c : Client) (l₁ l₂ : List Event) :
    issued c (run c (l₁ ++ l₂)) =
      issued c (run c l₁) ++ issued (run c l₁) (run (run c l₁) l₂) := by
  obtain ⟨t₁, h₁⟩ := run_trace l₁ c
  obtain ⟨t₂, h₂⟩ := run_trace l₂ (run c l₁)
  have h₃ : (run c (l₁ ++ l₂)).trace = c.trace ++ (t₁ ++ t₂) := by
    rw [run_append, h₂, h₁, List.append_assoc]
  rw [issued_of_trace_eq h₃, issued_of_trace_eq h₁, issued_of_trace_eq h₂]

/-- Any list of failed attempts can be delivered, and the retry timer is armed at each failure
and the connect issued `timeout` after it. -/
theorem retry_schedule (r : Role) (failures : List (Nat × String)) :
    ∀ c : Client, 0 < (c.conn r).inFlight → Idle c →
      exec c (retrySchedule r failures) = some (run c (retrySchedule r failures)) ∧
      connects r (issued c (run c (retrySchedule r failures))) =
        (failureTimes c.ioService.now failures).map
          (fun t => (t + timeout, c.address, c.port)) ∧
      armings (issued c (run c (retrySchedule r failures))) =
        (failureTimes c.ioService.now failures).map
          (fun t => (t, retryTimer r, connectMethod r)) := by
  induction failures with
  | nil =>
      intro c _ _
      simp [retrySchedule, exec, run, issued, connects, armings, failureTimes]
  | cons f rest ih =>
      intro c hflight hidle
      obtain ⟨latency, error⟩ := f
      obtain ⟨he, hf, hi, ha, hp, hn, hc, hw⟩ := retry_cycle r c latency error hflight hidle
      obtain ⟨ie, ic, iw⟩ := ih (run c (retryCycle r latency error)) hf hi
      refine ⟨?_, ?_, ?_⟩
      · rw [retrySchedule, he, ie, run_append]
      · rw [retrySchedule, issued_run_append, connects, List.filterMap_append, ← connects,
          ← connects, hc, ic, hn, ha, hp]
        simp [failureTimes]
      · rw [retrySchedule, issued_run_append, armings, List.filterMap_append, ← armings,
          ← armings, hw, iw, hn]
        simp [failureTimes]

/-- An event that is neither a failure of role `r` nor a firing of its retry timer, and is no
error or success of `r`, leaves the address, the port, the connects in flight of `r` and its
retry timer alone, issues no connect on `r`, does not arm its retry timer, and, unless it is
idle time, leaves the clock alone. -/
theorem retry_frame (r : Role) {s : Client} (hw : Wired s) (e : Event)
    (hq : retryQuiet r e = true) (hf : isFailure r e = false)
    (ht : e ≠ .timerExpired (retryTimer r)) :
    (dispatch s e).address = s.address ∧ (dispatch s e).port = s.port ∧
    ((dispatch s e).conn r).inFlight = (s.conn r).inFlight ∧
    (dispatch s e).timer (retryTimer r) = s.timer (retryTimer r) ∧
    connects r (issued s (dispatch s e)) = [] ∧
    retryArms r (issued s (dispatch s e)) = [] ∧
    ((∀ d, e ≠ .elapse d) → (dispatch s e).ioService.now = s.ioService.now) := by
  obtain ⟨h1, h2, h3, h4, h5⟩ := hw
  cases e with
  | start => simp [retryQuiet] at hq
  | connectCompleted q status error =>
      cases r <;> cases q <;> cases status <;>
        simp_all [retryQuiet, isFailure, dispatch, connectHandler, invokeConnectHandler,
          connCompleted, onPublisherConnected_eq, onSubscriberConnected_eq, Client.setConn,
          Client.conn, Client.timer, retryTimer, issued, connects, retryArms]
  | transportError q error =>
      cases r <;> cases q
      · simp [retryQuiet] at hq
      · by_cases hs : s.subscriber.state = .Connected <;>
          simp [dispatch, errorHandler, Client.conn, h2, invokeMethod, connectSubscriber_eq, hs,
            Client.timer, retryTimer, issued, connects, retryArms]
      · by_cases hs : s.publisher.state = .Connected <;>
          simp [dispatch, errorHandler, Client.conn, h1, invokeMethod, connectPublisher_eq, hs,
            Client.timer, retryTimer, issued, connects, retryArms]
      · simp [retryQuiet] at hq
  | timerExpired t =>
      cases t
      · cases hp : s.publishTimer.pending with
        | nil => cases r <;> simp [dispatch, Client.timer, hp, issued, connects, retryArms]
        | cons callback rest =>
            have hc : callback = .onPublishTimeout := h3 _ (by simp [hp])
            subst hc
            cases r <;> by_cases hs : s.publisher.state = .Connected <;>
              simp [dispatch, Client.timer, hp, issued, connects, retryArms, waitHandler,
                invokeMethod, onPublishTimeout_eq, Client.setTimer, hs, Client.conn, retryTimer]
      · cases r
        · cases hp : s.connectSubscriberTimer.pending with
          | nil => simp [dispatch, Client.timer, hp, issued, connects, retryArms]
          | cons callback rest =>
              have hc : callback = .connectSubscriber := h5 _ (by simp [hp])
              subst hc
              by_cases hs : s.subscriber.state = .Connected <;>
                simp [dispatch, Client.timer, hp, issued, connects, retryArms, waitHandler,
                  invokeMethod, connectSubscriber_eq, Client.setTimer, hs, Client.conn,
                  retryTimer]
        · simp [retryTimer] at ht
      · cases r
        · simp [retryTimer] at ht
        · cases hp : s.connectPublisherTimer.pending with
          | nil => simp [dispatch, Client.timer, hp, issued, connects, retryArms]
          | cons callback rest =>
              have hc : callback = .connectPublisher := h4 _ (by simp [hp])
              subst hc
              by_cases hs : s.publisher.state = .Connected <;>
                simp [dispatch, Client.timer, hp, issued, connects, retryArms, waitHandler,
                  invokeMethod, connectPublisher_eq, Client.setTimer, hs, Client.conn,
                  retryTimer]
  | waitAborted =>
      cases ha : s.ioService.aborted with
      | nil => simp [dispatch, ha, issued, connects, retryArms]
      | cons x rest =>
          cases r <;>
            simp [dispatch, ha, issued, connects, retryArms, waitHandler, Client.conn,
              Client.timer, retryTimer]
  | message buf =>
      cases r <;>
        simp [dispatch, onMessage, Client.emit, issued, connects, retryArms, Client.conn,
          Client.timer]
  | connectionState q st =>
      cases r <;> cases q <;>
        simp [dispatch, connSetState, Client.setConn, issued, connects, retryArms, Client.conn,
          Client.timer]
  | elapse d =>
      cases r <;> simp [dispatch, issued, connects, retryArms, Client.conn, Client.timer]

/-- A failure delivered while a connect is in flight arms the retry timer now and issues no
connect. -/
theorem retry_failure_step (r : Role) {c₀ s : Client} (h : Awaiting r c₀ s) (error : String) :
    Retrying r c₀ s.ioService.now (dispatch s (.connectCompleted r false error)) ∧
    connects r (issued s (dispatch s (.connectCompleted r false error))) = [] ∧
    retryArms r (issued s (dispatch s (.connectCompleted r false error))) =
      [s.ioService.now] := by
  obtain ⟨hw, ha, hp, hf, ht⟩ := h
  have hw' := wired_dispatch hw (.connectCompleted r false error)
  cases r
  · simp only [Client.conn] at hf
    refine ⟨⟨hw', ?_, ?_, ?_, ?_, ?_⟩, ?_, ?_⟩ <;>
      simp [dispatch, connectHandler, invokeConnectHandler, connCompleted,
        onPublisherConnected_eq, Client.setConn, Client.conn, Client.timer, retryTimer,
        connectMethod, issued, connects, retryArms, ha, hp, hf]
  · simp only [Client.conn] at hf
    refine ⟨⟨hw', ?_, ?_, ?_, ?_, ?_⟩, ?_, ?_⟩ <;>
      simp [dispatch, connectHandler, invokeConnectHandler, connCompleted,
        onSubscriberConnected_eq, Client.setConn, Client.conn, Client.timer, retryTimer,
        connectMethod, issued, connects, retryArms, ha, hp, hf]

/-- The retry timer can only fire `timeout` after the failure that armed it, and then issues one
connect. -/
theorem retry_firing_step (r : Role) {c₀ s : Client} {a : Nat} (h : Retrying r c₀ a s)
    (he : enabled s (.timerExpired (retryTimer r)) = true) :
    Awaiting r c₀ (dispatch s (.timerExpired (retryTimer r))) ∧
    connects r (issued s (dispatch s (.timerExpired (retryTimer r)))) =
      [(a + timeout, c₀.address, c₀.port)] ∧
    retryArms r (issued s (dispatch s (.timerExpired (retryTimer r)))) = [] := by
  obtain ⟨hw, ha, hp, hf, ht, hn⟩ := h
  have hw' := wired_dispatch hw (.timerExpired (retryTimer r))
  simp only [enabled, ht, Bool.and_eq_true, decide_eq_true_eq] at he
  have hnow : s.ioService.now = a + timeout := by omega
  cases r
  · simp only [Client.conn] at hf
    simp only [retryTimer, Client.timer] at ht
    by_cases hs : s.publisher.state = .Connected <;>
    refine ⟨⟨hw', ?_, ?_, ?_, ?_⟩, ?_, ?_⟩ <;>
      simp [dispatch, Client.timer, retryTimer, ht, connectMethod, waitHandler, invokeMethod,
        connectPublisher_eq, hs, Client.setTimer, Client.conn, issued, connects, retryArms, ha,
        hp, hf, hnow]
  · simp only [Client.conn] at hf
    simp only [retryTimer, Client.timer] at ht
    by_cases hs : s.subscriber.state = .Connected <;>
    refine ⟨⟨hw', ?_, ?_, ?_, ?_⟩, ?_, ?_⟩ <;>
      simp [dispatch, Client.timer, retryTimer, ht, connectMethod, waitHandler, invokeMethod,
        connectSubscriber_eq, hs, Client.setTimer, Client.conn, issued, connects, retryArms, ha,
        hp, hf, hnow]

/-- What a deliverable run issues, split at its first event. -/
theorem issued_exec_cons {s d : Client} {e : Event} {evs : List Event}
    (h : exec (dispatch s e) evs = some d) :
    issued s d = issued s (dispatch s e) ++ issued (dispatch s e) d := by
  have hd := exec_eq_run _ h
  rw [hd]
  exact issued_run_cons s e evs

/-- The events `isFailure` accepts. -/
theorem isFailure_eq {r : Role} {e : Event} (h : isFailure r e = true) :
    ∃ error, e = .connectCompleted r false error := by
  cases e with
  | connectCompleted q status error =>
      simp only [isFailure, Bool.and_eq_true, decide_eq_true_eq, Bool.not_eq_true'] at h
      obtain ⟨rfl, rfl⟩ := h
      exact ⟨error, rfl⟩
  | _ => simp [isFailure] at h

/-- In every deliverable run that leaves the reconnect cycle of `r` to itself, the connects of
`r` are issued `timeout` after the failures, one for each completed wait of the retry timer,
whether the run starts with a connect in flight or with the retry timer pending. -/
theorem retry_exec (r : Role) (c₀ : Client) (evs : List Event) : ∀ (s d : Client),
    exec s evs = some d → evs.all (retryQuiet r) = true →
    (Awaiting r c₀ s →
      connects r (issued s d) =
        ((retryArms r (issued s d)).take (evs.count (.timerExpired (retryTimer r)))).map
          (fun a => (a + timeout, c₀.address, c₀.port)) ∧
      (retryArms r (issued s d)).length = evs.countP (isFailure r)) ∧
    (∀ a, Retrying r c₀ a s →
      connects r (issued s d) =
        ((a :: retryArms r (issued s d)).take (evs.count (.timerExpired (retryTimer r)))).map
          (fun a => (a + timeout, c₀.address, c₀.port)) ∧
      (retryArms r (issued s d)).length = evs.countP (isFailure r)) := by
  induction evs with
  | nil =>
      intro s d h _
      simp only [exec, Option.some.injEq] at h
      subst h
      simp [issued, connects, retryArms]
  | cons e evs ih =>
      intro s d h hq
      rw [exec] at h
      split_ifs at h with he
      rw [List.all_cons, Bool.and_eq_true] at hq
      obtain ⟨ihA, ihB⟩ := ih _ d h hq.2
      have hiss := issued_exec_cons h
      have hcon : connects r (issued s d) =
          connects r (issued s (dispatch s e)) ++ connects r (issued (dispatch s e) d) := by
        rw [hiss]; simp only [connects, List.filterMap_append]
      have harm : retryArms r (issued s d) =
          retryArms r (issued s (dispatch s e)) ++ retryArms r (issued (dispatch s e) d) := by
        rw [hiss]; simp only [retryArms, List.filterMap_append]
      by_cases hfail : isFailure r e = true
      · obtain ⟨error, rfl⟩ := isFailure_eq hfail
        have hcnt : (Event.connectCompleted r false error :: evs).count
            (.timerExpired (retryTimer r)) = evs.count (.timerExpired (retryTimer r)) :=
          List.count_cons_of_ne (by simp) _
        constructor
        · intro hA
          obtain ⟨hB, hc, ha⟩ := retry_failure_step r hA error
          obtain ⟨i1, i2⟩ := ihB _ hB
          rw [hcon, harm, hc, ha, i1, hcnt, List.countP_cons_of_pos _ _ hfail]
          simp [i2]
        · intro a hB
          have : (s.conn r).inFlight = 0 := hB.2.2.2.1
          simp [enabled, this] at he
      · by_cases hfire : e = .timerExpired (retryTimer r)
        · subst hfire
          constructor
          · intro hA
            have : (s.timer (retryTimer r)).pending = [] := hA.2.2.2.2
            simp [enabled, this] at he
          · intro a hB
            obtain ⟨hA, hc, ha⟩ := retry_firing_step r hB he
            obtain ⟨i1, i2⟩ := ihA hA
            rw [hcon, harm, hc, ha, i1, List.count_cons_self,
              List.countP_cons_of_neg _ _ hfail]
            simp [i2]
        · have hfalse : isFailure r e = false := by simpa using hfail
          have hcnt : (e :: evs).count (.timerExpired (retryTimer r)) =
              evs.count (.timerExpired (retryTimer r)) :=
            List.count_cons_of_ne (Ne.symm hfire) _
          constructor
          · intro hA
            obtain ⟨hw, ha, hp, hf, ht⟩ := hA
            obtain ⟨f1, f2, f3, f4, f5, f6, _⟩ := retry_frame r hw e hq.1 hfalse hfire
            have hA' : Awaiting r c₀ (dispatch s e) :=
              ⟨wired_dispatch hw e, f1.trans ha, f2.trans hp, f3.trans hf, by rw [f4]; exact ht⟩
            obtain ⟨i1, i2⟩ := ihA hA'
            rw [hcon, harm, f5, f6, List.nil_append, List.nil_append, i1, hcnt,
              List.countP_cons_of_neg _ _ hfail]
            exact ⟨rfl, i2⟩
          · intro a hB
            obtain ⟨hw, ha, hp, hf, ht, hn⟩ := hB
            obtain ⟨f1, f2, f3, f4, f5, f6, f7⟩ := retry_frame r hw e hq.1 hfalse hfire
            have hnow : (dispatch s e).ioService.now ≤ a + timeout := by
              by_cases hel : ∃ d, e = .elapse d
              · obtain ⟨d, rfl⟩ := hel
                have hall : ∀ t ∈ allTimers, ((s.timer t).pending.isEmpty ||
                    decide (s.ioService.now + d ≤ (s.timer t).expiry)) = true := by
                  simpa [enabled] using he
                have := hall (retryTimer r) (by cases r <;> simp [allTimers, retryTimer])
                rw [ht] at this
                simpa [dispatch] using this
              · rw [f7 (fun d hd => hel ⟨d, hd⟩)]
                exact hn
            have hB' : Retrying r c₀ a (dispatch s e) :=
              ⟨wired_dispatch hw e, f1.trans ha, f2.trans hp, f3.trans hf, f4.trans ht, hnow⟩
            obtain ⟨i1, i2⟩ := ihB a hB'
            rw [hcon, harm, f5, f6, List.nil_append, List.nil_append, i1, hcnt,
              List.countP_cons_of_neg _ _ hfail]
            exact ⟨rfl, i2⟩

set_option maxHeartbeats 4000000 in
/-- Every deliverable event does to the retry timer of `r`, to the clock and to the connects
of `r` what `retryModel` says. -/
theorem retry_model_step (r : Role) {c₀ s : Client} {last : Option Nat}
    (h : RetryState r c₀ last s) (e : Event) (he : enabled s e = true) :
    RetryState r c₀ (retryModel r s.ioService.now last e).2.2 (dispatch s e) ∧
    (dispatch s e).ioService.now = (retryModel r s.ioService.now last e).2.1 ∧
    connects r (issued s (dispatch s e)) =
      (retryModel r s.ioService.now last e).1.map fun t => (t, c₀.address, c₀.port) := by
  obtain ⟨hw, ha, hp, ht⟩ := h
  have hw' := wired_dispatch hw e
  obtain ⟨h1, h2, h3, h4, h5⟩ := hw
  cases e with
  | start =>
      by_cases hps : s.publisher.state = .Connected <;>
      by_cases hss : s.subscriber.state = .Connected <;>
      cases r <;> cases last <;>
        (simp only [retryTimer, connectMethod, Client.timer] at ht
         refine ⟨⟨hw', ?_, ?_, ?_⟩, ?_, ?_⟩ <;>
           simp [dispatch, start, connectPublisher_eq, connectSubscriber_eq, hps, hss,
             retryModel, issued, connects, retryTimer, connectMethod, Client.timer, ha, hp, ht])
  | connectCompleted q status error =>
      cases r <;> cases q <;> cases status <;> cases last <;>
        (simp only [retryTimer, connectMethod, Client.timer] at ht
         refine ⟨⟨hw', ?_, ?_, ?_⟩, ?_, ?_⟩ <;>
           simp [dispatch, connectHandler, invokeConnectHandler, connCompleted,
             onPublisherConnected_eq, onSubscriberConnected_eq, Client.setConn, Client.conn,
             retryModel, issued, connects, retryTimer, connectMethod, Client.timer, ha, hp, ht])
  | transportError q error =>
      by_cases hps : s.publisher.state = .Connected <;>
      by_cases hss : s.subscriber.state = .Connected <;>
      cases r <;> cases q <;> cases last <;>
        (simp only [retryTimer, connectMethod, Client.timer] at ht
         refine ⟨⟨hw', ?_, ?_, ?_⟩, ?_, ?_⟩ <;>
           simp [dispatch, errorHandler, Client.conn, h1, h2, invokeMethod, connectPublisher_eq,
             connectSubscriber_eq, hps, hss, retryModel, issued, connects, retryTimer,
             connectMethod, Client.timer, ha, hp, ht])
  | timerExpired t =>
      cases t
      · cases hq : s.publishTimer.pending with
        | nil => simp [enabled, Client.timer, hq] at he
        | cons callback rest =>
            have hc : callback = .onPublishTimeout := h3 _ (by simp [hq])
            subst hc
            by_cases hps : s.publisher.state = .Connected <;>
            cases r <;> cases last <;>
              (simp only [retryTimer, connectMethod, Client.timer] at ht
               refine ⟨⟨hw', ?_, ?_, ?_⟩, ?_, ?_⟩ <;>
                 simp [dispatch, Client.timer, hq, waitHandler, invokeMethod,
                   onPublishTimeout_eq, Client.setTimer, hps, retryModel, issued, connects,
                   retryTimer, connectMethod, ha, hp, ht])
      · cases hq : s.connectSubscriberTimer.pending with
        | nil => simp [enabled, Client.timer, hq] at he
        | cons callback rest =>
            have hc : callback = .connectSubscriber := h5 _ (by simp [hq])
            subst hc
            have hen : s.connectSubscriberTimer.expiry ≤ s.ioService.now := by
              simpa [enabled, Client.timer, hq] using he
            by_cases hss : s.subscriber.state = .Connected <;>
            cases r <;> cases last <;>
              (simp only [retryTimer, connectMethod, Client.timer] at ht
               refine ⟨⟨hw', ?_, ?_, ?_⟩, ?_, ?_⟩ <;>
                 simp_all [dispatch, Client.timer, waitHandler, invokeMethod,
                   connectSubscriber_eq, Client.setTimer, retryModel, issued, connects,
                   retryTimer, connectMethod] <;> omega)
      · cases hq : s.connectPublisherTimer.pending with
        | nil => simp [enabled, Client.timer, hq] at he
        | cons callback rest =>
            have hc : callback = .connectPublisher := h4 _ (by simp [hq])
            subst hc
            have hen : s.connectPublisherTimer.expiry ≤ s.ioService.now := by
              simpa [enabled, Client.timer, hq] using he
            by_cases hps : s.publisher.state = .Connected <;>
            cases r <;> cases last <;>
              (simp only [retryTimer, connectMethod, Client.timer] at ht
               refine ⟨⟨hw', ?_, ?_, ?_⟩, ?_, ?_⟩ <;>
                 simp_all [dispatch, Client.timer, waitHandler, invokeMethod,
                   connectPublisher_eq, Client.setTimer, retryModel, issued, connects,
                   retryTimer, connectMethod] <;> omega)
  | waitAborted =>
      cases hq : s.ioService.aborted with
      | nil => simp [enabled, hq] at he
      | cons x rest =>
          cases r <;> cases last <;>
            (simp only [retryTimer, connectMethod, Client.timer] at ht
             refine ⟨⟨hw', ?_, ?_, ?_⟩, ?_, ?_⟩ <;>
               simp [dispatch, hq, waitHandler, retryModel, issued, connects, retryTimer,
                 connectMethod, Client.timer, ha, hp, ht])
  | message buf =>
      cases r <;> cases last <;>
        (simp only [retryTimer, connectMethod, Client.timer] at ht
         refine ⟨⟨hw', ?_, ?_, ?_⟩, ?_, ?_⟩ <;>
           simp [dispatch, onMessage, Client.emit, retryModel, issued, connects, retryTimer,
             connectMethod, Client.timer, ha, hp, ht])
  | connectionState q st =>
      cases r <;> cases q <;> cases last <;>
        (simp only [retryTimer, connectMethod, Client.timer] at ht
         refine ⟨⟨hw', ?_, ?_, ?_⟩, ?_, ?_⟩ <;>
           simp [dispatch, connSetState, Client.setConn, Client.conn, retryModel, issued,
             connects, retryTimer, connectMethod, Client.timer, ha, hp, ht])
  | elapse d =>
      have hall : ∀ t ∈ allTimers, ((s.timer t).pending.isEmpty ||
          decide (s.ioService.now + d ≤ (s.timer t).expiry)) = true := by
        simpa [enabled] using he
      have hr := hall (retryTimer r) (by cases r <;> simp [allTimers, retryTimer])
      have hte : (dispatch s (.elapse d)).timer (retryTimer r) = s.timer (retryTimer r) := by
        cases r <;> rfl
      refine ⟨⟨hw', ha, hp, ?_⟩, rfl, ?_⟩
      · cases last with
        | none =>
            show ((dispatch s (.elapse d)).timer (retryTimer r)).pending = []
            rw [hte]; exact ht
        | some a =>
            obtain ⟨t1, t2⟩ := ht
            rw [t1] at hr
            refine ⟨hte.trans t1, ?_⟩
            simpa [dispatch] using hr
      · simp [dispatch, retryModel, issued, connects]

/-- Over every deliverable run the connects of `r` are issued at the times `retryModel`
gives. -/
theorem retry_model_exec (r : Role) (c₀ : Client) (evs : List Event) :
    ∀ (s d : Client) (last : Option Nat), RetryState r c₀ last s → exec s evs = some d →
    connects r (issued s d) =
      (expectedConnectTimes r s.ioService.now last evs).map
        fun t => (t, c₀.address, c₀.port) := by
  induction evs with
  | nil =>
      intro s d last _ h
      simp only [exec, Option.some.injEq] at h
      subst h
      simp [issued, connects, expectedConnectTimes]
  | cons e evs ih =>
      intro s d last hs h
      rw [exec] at h
      split_ifs at h with he
      obtain ⟨s1, s2, s3⟩ := retry_model_step r hs e he
      have hiss := issued_exec_cons h
      have hcon : connects r (issued s d) =
          connects r (issued s (dispatch s e)) ++ connects r (issued (dispatch s e) d) := by
        rw [hiss]; simp only [connects, List.filterMap_append]
      rw [hcon, s3, ih _ d _ s1 h, s2, expectedConnectTimes, List.map_append]

/-- C1 (amended): for either role. (1) A failed completion, with any error text, issues no
`connect` in its own step and leaves the retry timer of the role with one wait, for one
second later, the reconnect function being the callback (a wait pending before is
superseded); the completed wait issues exactly one `connect` to the configured address and
port. (2) Starting with one connect in flight and the retry timer not pending, in every run
the loop can deliver in which the role gets neither an error-handler call nor a successful
completion (events of the other role, of the publish timer, messages and idle time may be
interleaved freely), the connects of the role are issued exactly one second after the
failures, in order, one for each failure whose wait has completed, and the retry timer was
armed once per failure. (3) When no timer is pending at the start, any number of failures,
with any latencies and error texts, can be delivered one after the other, and the connect
after each is issued exactly one second after it. (4) In every run the loop can deliver from
the freshly constructed client, whatever the events, the connects of the role are those of
`retryModel`: one at once for `start()` and for each transport error, and one for each firing
of the retry timer, exactly one second after the latest failure delivered before it. -/
theorem failed_connects_retried_after_fixed_delay (r : Role) (c : Client)
    (hw : Wired c) (hflight : (c.conn r).inFlight = 1)
    (hretry : (c.timer (retryTimer r)).pending = []) :
    (∀ (d : Client) (error : String),
      connects r (issued d (invokeConnectHandler (connectHandler r) false error d)) = [] ∧
      armings (issued d (invokeConnectHandler (connectHandler r) false error d)) =
        [(d.ioService.now, retryTimer r, connectMethod r)] ∧
      (invokeConnectHandler (connectHandler r) false error d).timer (retryTimer r) =
        { expiry := d.ioService.now + seconds 1, pending := [connectMethod r] } ∧
      connects r (issued d (waitHandler (connectMethod r) .success d)) =
        [(d.ioService.now, d.address, d.port)]) ∧
    (∀ evs d, exec c evs = some d → evs.all (retryQuiet r) = true →
      connects r (issued c d) =
        ((retryArms r (issued c d)).take (evs.count (.timerExpired (retryTimer r)))).map
          (fun a => (a + seconds 1, c.address, c.port)) ∧
      (retryArms r (issued c d)).length = evs.countP (isFailure r)) ∧
    (Idle c → ∀ failures : List (Nat × String),
      exec c (retrySchedule r failures) = some (run c (retrySchedule r failures)) ∧
      armings (issued c (run c (retrySchedule r failures))) =
        (failureTimes c.ioService.now failures).map
          (fun t => (t, retryTimer r, connectMethod r)) ∧
      connects r (issued c (run c (retrySchedule r failures))) =
        (failureTimes c.ioService.now failures).map
          (fun t => (t + seconds 1, c.address, c.port)) ∧
      (connects r (issued c (run c (retrySchedule r failures)))).length = failures.length) ∧
    (∀ (address : String) (port : Nat) (evs : List Event) (d : Client),
      exec (Client.new address port) evs = some d →
      connects r (issued (Client.new address port) d) =
        (expectedConnectTimes r 0 none evs).map fun t => (t, address, port)) := by
  refine ⟨?_, ?_, ?_, ?_⟩
  · intro d error
    cases r
    · by_cases h : d.publisher.state = .Connected <;>
        simp [invokeConnectHandler, connectHandler, onPublisherConnected_eq, issued, connects,
          armings, retryTimer, connectMethod, Client.timer, timeout, waitHandler, invokeMethod,
          connectPublisher_eq, h]
    · by_cases h : d.subscriber.state = .Connected <;>
        simp [invokeConnectHandler, connectHandler, onSubscriberConnected_eq, issued, connects,
          armings, retryTimer, connectMethod, Client.timer, timeout, waitHandler, invokeMethod,
          connectSubscriber_eq, h]
  · intro evs d he hq
    exact (retry_exec r c evs c d he hq).1 ⟨hw, rfl, rfl, hflight, hretry⟩
  · intro hidle failures
    obtain ⟨he, hc, ha⟩ := retry_schedule r failures c (by omega) hidle
    refine ⟨he, ha, hc, ?_⟩
    rw [hc]
    have : ∀ (l : List (Nat × String)) (n : Nat), (failureTimes n l).length = l.length := by
      intro l
      induction l with
      | nil => intro n; rfl
      | cons f l ih => intro n; obtain ⟨a, b⟩ := f; simp [failureTimes, ih]
    simp [this]
  · intro address port evs d he
    have hs : RetryState r (Client.new address port) none (Client.new address port) :=
      ⟨wired_new address port, rfl, rfl, by cases r <;> rfl⟩
    exact retry_model_exec r (Client.new address port) evs _ d none hs he

/-- C1 (amended), for three failed publisher attempts after `start()`. -/
theorem failed_connects_retried_after_fixed_delay_witness :
    Wired startedClient ∧ (startedClient.conn .publisher).inFlight = 1 ∧
    (startedClient.timer (retryTimer .publisher)).pending = [] ∧ Idle startedClient ∧
    connects .publisher (issued startedClient (run startedClient
        (retrySchedule .publisher [(300, "Connection refused"), (0, "Connection refused"),
          (1500000, "timed out")]))) =
      [(1000300, "127.0.0.1", 6379), (2000300, "127.0.0.1", 6379),
       (4500300, "127.0.0.1", 6379)] :=
  ⟨by decide, by decide, by decide, by decide,
    ((failed_connects_retried_after_fixed_delay .publisher startedClient
      (by decide) (by decide) (by decide)).2.2.1 (by decide)
      [(300, "Connection refused"), (0, "Connection refused"), (1500000, "timed out")]).2.2.1⟩

/-- C1 (as stated, refuted): with two publisher connects in flight (after `start()` and one
transport error), two failed completions are delivered 300 microseconds apart. Both arm the
retry timer (at 0 and at 300), the second superseding the wait of the first, and a single
connect follows, one second after the second failure: no connect is issued one second after
the first failure. -/
theorem overlapping_failures_get_one_retry :
    exec (Client.new "127.0.0.1" 6379) [.start, .transportError .publisher "End of file"] =
      some twoInFlight ∧
    twoInFlight.publisher.inFlight = 2 ∧
    twoInFlight.connectPublisherTimer.pending = [] ∧
    exec twoInFlight overlappingFailures = some (run twoInFlight overlappingFailures) ∧
    (overlappingFailures.filter (isFailure .publisher)).length = 2 ∧
    retryArms .publisher (issued twoInFlight (run twoInFlight overlappingFailures)) =
      [0, 300] ∧
    connects .publisher (issued twoInFlight (run twoInFlight overlappingFailures)) =
      [(300 + seconds 1, "127.0.0.1", 6379)] ∧
    (0 + seconds 1, "127.0.0.1", 6379) ∉
      connects .publisher (issued twoInFlight (run twoInFlight overlappingFailures)) := by
  refine ⟨by rfl, by decide, by decide, by rfl, by decide, by decide, by decide, by decide⟩

/-! ## The decimal rendering of the counter is injective -/

/-- A decimal digit character has the value of its digit. -/
theorem digitValue_digitChar (k : Nat) (h : k < 10) : digitValue (Nat.digitChar k) = k := by
  interval_cases k <;> rfl

/-- Reading back the digits `Nat.toDigitsCore` produces gives the number, when the fuel
suffices. -/
theorem foldl_toDigitsCore (fuel : Nat) : ∀ (n : Nat) (ds : List Char), n < fuel →
    (Nat.toDigitsCore 10 fuel n ds).foldl (fun a ch => a * 10 + digitValue ch) 0 =
      ds.foldl (fun a ch => a * 10 + digitValue ch) n := by
  induction fuel with
  | zero => intro n ds h; omega
  | succ fuel ih =>
      intro n ds h
      rw [Nat.toDigitsCore]
      by_cases h0 : n / 10 = 0
      · simp only [h0, if_true, List.foldl_cons]
        rw [digitValue_digitChar _ (Nat.mod_lt _ (by decide))]
        congr 1
        omega
      · simp only [h0, if_false]
        rw [ih (n / 10) _ (by omega), List.foldl_cons,
          digitValue_digitChar _ (Nat.mod_lt _ (by decide))]
        congr 1
        omega

/-- Reading back the decimal rendering of a number gives the number. -/
theorem decimalValue_toString (n : Nat) : decimalValue (toString n).data = n := by
  have h := foldl_toDigitsCore (n + 1) n [] (by omega)
  simpa [decimalValue, toString, Nat.repr, Nat.toDigits, List.asString] using h

/-- Different numbers have different decimal renderings. -/
theorem toString_injective {n m : Nat} (h : toString n = toString m) : n = m := by
  have := congrArg (fun s : String => decimalValue s.data) h
  simpa [decimalValue_toString] using this

/-- Heartbeat payloads with different numbers are different. -/
theorem message_injective {n m : Nat}
    (h : "message " ++ toString n = "message " ++ toString m) : n = m := by
  apply toString_injective
  have h' := congrArg String.data h
  simp only [String.data_append] at h'
  exact String.ext (List.append_cancel_left h')

/-! ## The counter and the heartbeats, event by event -/

/-- What an event does to the counter and what it publishes: only a completed wait of the
publish timer advances the counter, and it publishes the old value when the publisher is
connected. -/
theorem dispatch_counter_publishes {c : Client} (h : Wired c) (e : Event) :
    (dispatch c e).counter =
        (if publishTimerFires c e then (c.counter + 1) % sizeModulus else c.counter) ∧
    publishes (issued c (dispatch c e)) =
        (if publishTimerFires c e && isConnected .publisher c then
          [(c.ioService.now, .publisher, channelName, "message " ++ toString c.counter)]
         else []) := by
  obtain ⟨h1, h2, h3, h4, h5⟩ := h
  cases e with
  | start =>
      by_cases hp : c.publisher.state = .Connected <;>
      by_cases hs : c.subscriber.state = .Connected <;>
        simp [dispatch, start, connectSubscriber_eq, connectPublisher_eq, hp, hs,
          publishTimerFires, issued, publishes]
  | connectCompleted r status error =>
      cases r <;> cases status <;>
        simp [dispatch, connectHandler, invokeConnectHandler, connCompleted,
          onPublisherConnected_eq, onSubscriberConnected_eq, Client.setConn, Client.conn,
          publishTimerFires, issued, publishes]
  | transportError r error =>
      cases r
      · by_cases hp : c.publisher.state = .Connected <;>
          simp [dispatch, errorHandler, Client.conn, h1, invokeMethod, connectPublisher_eq, hp,
            publishTimerFires, issued, publishes]
      · by_cases hs : c.subscriber.state = .Connected <;>
          simp [dispatch, errorHandler, Client.conn, h2, invokeMethod, connectSubscriber_eq, hs,
            publishTimerFires, issued, publishes]
  | timerExpired t =>
      cases t
      · cases hp : c.publishTimer.pending with
        | nil => simp [dispatch, Client.timer, hp, publishTimerFires, issued, publishes]
        | cons callback rest =>
            have hc : callback = .onPublishTimeout := h3 _ (by simp [hp])
            subst hc
            by_cases hs : c.publisher.state = .Connected <;>
              simp [dispatch, Client.timer, hp, publishTimerFires, issued, publishes, waitHandler,
                invokeMethod, onPublishTimeout_eq, Client.setTimer, hs, isConnected, Client.conn]
      · cases hp : c.connectSubscriberTimer.pending with
        | nil => simp [dispatch, Client.timer, hp, publishTimerFires, issued, publishes]
        | cons callback rest =>
            have hc : callback = .connectSubscriber := h5 _ (by simp [hp])
            subst hc
            by_cases hs : c.subscriber.state = .Connected <;>
              simp [dispatch, Client.timer, hp, publishTimerFires, issued, publishes, waitHandler,
                invokeMethod, connectSubscriber_eq, Client.setTimer, hs]
      · cases hp : c.connectPublisherTimer.pending with
        | nil => simp [dispatch, Client.timer, hp, publishTimerFires, issued, publishes]
        | cons callback rest =>
            have hc : callback = .connectPublisher := h4 _ (by simp [hp])
            subst hc
            by_cases hs : c.publisher.state = .Connected <;>
              simp [dispatch, Client.timer, hp, publishTimerFires, issued, publishes, waitHandler,
                invokeMethod, connectPublisher_eq, Client.setTimer, hs]
  | waitAborted =>
      cases ha : c.ioService.aborted with
      | nil => simp [dispatch, ha, publishTimerFires, issued, publishes]
      | cons x rest => simp [dispatch, ha, publishTimerFires, issued, publishes, waitHandler]
  | message buf => simp [dispatch, onMessage, Client.emit, publishTimerFires, issued, publishes]
  | connectionState r s =>
      cases r <;>
        simp [dispatch, connSetState, Client.setConn, publishTimerFires, issued, publishes]
  | elapse d => simp [dispatch, publishTimerFires, issued, publishes]


/-- The trace after an event is the trace before followed by what the event issued. -/
theorem trace_dispatch (c : Client) (e : Event) :
    (dispatch c e).trace = c.trace ++ issued c (dispatch c e) := by
  obtain ⟨l, h⟩ := dispatch_trace c e
  rw [issued_of_trace_eq h, h]

/-- Only the expiry event of the publish timer completes a wait of the publish timer. -/
theorem publishTimerFires_event {c : Client} {e : Event} (h : publishTimerFires c e = true) :
    e = .timerExpired .publishTimer := by
  simp only [publishTimerFires, Bool.and_eq_true, decide_eq_true_eq] at h
  exact h.1

/-- Without wrap-around the counter does not decrease over a run and advances by at most the
number of publish-timer events. -/
theorem counter_run_bounds (evs : List Event) : ∀ c : Client, Wired c →
    c.counter + evs.count (.timerExpired .publishTimer) < sizeModulus →
    c.counter ≤ (run c evs).counter ∧
      (run c evs).counter ≤ c.counter + evs.count (.timerExpired .publishTimer) := by
  induction evs with
  | nil => intro c _ _; simp [run]
  | cons e evs ih =>
      intro c hw hb
      have hc := (dispatch_counter_publishes hw e).1
      have hrun : run c (e :: evs) = run (dispatch c e) evs := rfl
      rw [hrun]
      by_cases hf : publishTimerFires c e = true
      · have he := publishTimerFires_event hf
        subst he
        rw [if_pos hf] at hc
        rw [List.count_cons_self] at hb ⊢
        have hlt : c.counter + 1 < sizeModulus := by omega
        rw [Nat.mod_eq_of_lt hlt] at hc
        have := ih (dispatch c (.timerExpired .publishTimer)) (wired_dispatch hw _)
          (by rw [hc]; omega)
        rw [hc] at this
        omega
      · rw [if_neg hf] at hc
        have hle : evs.count (.timerExpired .publishTimer) ≤
            (e :: evs).count (.timerExpired .publishTimer) := List.count_le_count_cons _ _ _
        have := ih (dispatch c e) (wired_dispatch hw _) (by rw [hc]; omega)
        rw [hc] at this
        omega

/-- Without wrap-around, when the payloads published so far are pairwise different and numbered
below the counter, so are the payloads after a run. -/
theorem payloads_run (evs : List Event) : ∀ c : Client, Wired c →
    c.counter + evs.count (.timerExpired .publishTimer) < sizeModulus →
    (∀ x ∈ (publishes c.trace).map (fun p => p.2.2.2),
      ∃ k, k < c.counter ∧ x = "message " ++ toString k) →
    ((publishes c.trace).map (fun p => p.2.2.2)).Nodup →
    ((publishes (run c evs).trace).map (fun p => p.2.2.2)).Nodup := by
  induction evs with
  | nil => intro c _ _ _ hn; exact hn
  | cons e evs ih =>
      intro c hw hb hbelow hn
      obtain ⟨hc, hp⟩ := dispatch_counter_publishes hw e
      have hrun : run c (e :: evs) = run (dispatch c e) evs := rfl
      have htr : publishes (dispatch c e).trace =
          publishes c.trace ++ publishes (issued c (dispatch c e)) := by
        rw [trace_dispatch c e, publishes, List.filterMap_append]; rfl
      rw [hrun]
      by_cases hf : publishTimerFires c e = true
      · have he := publishTimerFires_event hf
        subst he
        rw [if_pos hf] at hc
        rw [List.count_cons_self] at hb
        have hlt : c.counter + 1 < sizeModulus := by omega
        rw [Nat.mod_eq_of_lt hlt] at hc
        apply ih _ (wired_dispatch hw _) (by rw [hc]; omega)
        · intro x hx
          rw [htr, hp, List.map_append, List.mem_append] at hx
          rcases hx with hx | hx
          · obtain ⟨k, hk, rfl⟩ := hbelow x hx
            exact ⟨k, by rw [hc]; omega, rfl⟩
          · split_ifs at hx
            · simp only [List.map_cons, List.map_nil, List.mem_singleton] at hx
              exact ⟨c.counter, by rw [hc]; omega, hx⟩
            · simp at hx
        · rw [htr, hp, List.map_append]
          split_ifs
          · simp only [List.map_cons, List.map_nil]
            rw [List.nodup_append]
            refine ⟨hn, List.nodup_singleton _, ?_⟩
            intro x hx hx'
            rw [List.mem_singleton] at hx'
            obtain ⟨k, hk, hxk⟩ := hbelow x hx
            have := message_injective (hxk.symm.trans hx')
            omega
          · simpa using hn
      · rw [if_neg hf] at hc
        have hle : evs.count (.timerExpired .publishTimer) ≤
            (e :: evs).count (.timerExpired .publishTimer) := List.count_le_count_cons _ _ _
        have hp' : publishes (issued c (dispatch c e)) = [] := by
          rw [hp]; simp [hf]
        apply ih _ (wired_dispatch hw _) (by rw [hc]; omega)
        · rw [htr, hp', List.append_nil, hc]; exact hbelow
        · rw [htr, hp', List.append_nil]; exact hn

/-! ## The heartbeat counter -/

/-- C10: for every finite sequence of events run from the freshly constructed client, in which
the counter does not wrap around (fewer than `2 ^ 64` publish-timer events): the counter never
decreases from any point of the sequence to its end; an event other than a firing of the
publish timer leaves the counter as it is; and no two heartbeats published carry the same
payload. -/
theorem counter_only_advances (address : String) (port : Nat) (evs : List Event)
    (hwrap : evs.count (.timerExpired .publishTimer) < sizeModulus) :
    (∀ pre post, evs = pre ++ post →
      (run (Client.new address port) pre).counter ≤
        (run (Client.new address port) evs).counter) ∧
    (∀ pre e post, evs = pre ++ e :: post → e ≠ .timerExpired .publishTimer →
      (run (Client.new address port) (pre ++ [e])).counter =
        (run (Client.new address port) pre).counter) ∧
    ((publishes (run (Client.new address port) evs).trace).map fun p => p.2.2.2).Nodup := by
  have hw := wired_new address port
  have h0 : (Client.new address port).counter = 0 := rfl
  have hp0 : publishes (Client.new address port).trace = [] := rfl
  refine ⟨?_, ?_, ?_⟩
  · intro pre post he
    subst he
    rw [List.count_append] at hwrap
    have h1 := counter_run_bounds pre _ hw (by rw [h0]; omega)
    have h2 := counter_run_bounds post _ (wired_run pre hw) (by rw [h0] at h1; omega)
    rw [run_append]
    exact h2.1
  · intro pre e post _ hne
    rw [run_append]
    have := (dispatch_counter_publishes (wired_run pre hw) e).1
    have hf : publishTimerFires (run (Client.new address port) pre) e = false := by
      simp [publishTimerFires, hne]
    rw [hf] at this
    simpa [run] using this
  · apply payloads_run evs _ hw (by rw [h0]; omega)
    · rw [hp0]; simp
    · rw [hp0]; simp

/-- C10, for the scenario with a connection flicker. -/
theorem counter_only_advances_witness :
    flickerEvents.count (.timerExpired .publishTimer) < sizeModulus ∧
    ((publishes (run (Client.new "127.0.0.1" 6379) flickerEvents).trace).map
      fun p => p.2.2.2).Nodup :=
  ⟨by decide, (counter_only_advances "127.0.0.1" 6379 flickerEvents (by decide)).2.2⟩

/-- C5 (as stated, refuted): a firing of the publish timer while the publisher reports not
connected advances the counter (from 0 to 1 on the fresh client), so the first heartbeat
published after one such firing carries `"message 1"`, not `"message 0"`. -/
theorem first_heartbeat_after_flicker_is_message_1 :
    isConnected .publisher (Client.new "127.0.0.1" 6379) = false ∧
    (Client.new "127.0.0.1" 6379).counter = 0 ∧
    (onPublishTimeout (Client.new "127.0.0.1" 6379)).counter = 1 ∧
    exec (Client.new "127.0.0.1" 6379) flickerEvents =
      some (run (Client.new "127.0.0.1" 6379) flickerEvents) ∧
    publishes (run (Client.new "127.0.0.1" 6379) flickerEvents).trace =
      [(2000000, .publisher, "unique-redis-channel-name-example", "message 1")] ∧
    (publishes (run (Client.new "127.0.0.1" 6379) flickerEvents).trace).map
      (fun p => p.2.2.2) ≠ ["message 0"] := by
  refine ⟨by decide, by decide, by decide, by rfl, by decide, by decide⟩

/-- The counter and the published payloads over a run, in terms of the log of publish-timer
firings. -/
theorem heartbeats_run (evs : List Event) : ∀ c : Client, Wired c →
    (run c evs).counter % sizeModulus = (c.counter + (firingLog c evs).length) % sizeModulus ∧
    (publishes (issued c (run c evs))).map (fun p => p.2.2.2) =
      heartbeatsFrom c.counter (firingLog c evs) := by
  induction evs with
  | nil => intro c _; simp [run, firingLog, heartbeatsFrom, issued, publishes]
  | cons e evs ih =>
      intro c hw
      obtain ⟨hc, hp⟩ := dispatch_counter_publishes hw e
      obtain ⟨ic, ip⟩ := ih (dispatch c e) (wired_dispatch hw e)
      have hrun : run c (e :: evs) = run (dispatch c e) evs := rfl
      constructor
      · rw [hrun, ic, hc, firingLog]
        by_cases hf : publishTimerFires c e = true
        · simp only [hf, if_true, sizeModulus, List.length_append, List.length_singleton]
          omega
        · simp [hf]
      · rw [issued_run_cons, publishes, List.filterMap_append, ← publishes, ← publishes,
          List.map_append, ip, hp, hc, firingLog]
        by_cases hf : publishTimerFires c e = true
        · by_cases hs : isConnected .publisher c = true <;> simp [hf, hs, heartbeatsFrom]
        · simp [hf, heartbeatsFrom]

/-- The counter stays in the range of `size_t`. -/
theorem run_counter_lt (evs : List Event) : ∀ c : Client, Wired c →
    c.counter < sizeModulus → (run c evs).counter < sizeModulus := by
  induction evs with
  | nil => intro c _ h; exact h
  | cons e evs ih =>
      intro c hw h
      apply ih (dispatch c e) (wired_dispatch hw e)
      rw [(dispatch_counter_publishes hw e).1]
      split_ifs
      · exact Nat.mod_lt _ (by decide)
      · exact h

/-- C5 (amended): every firing of the publish timer advances the counter by one (in `size_t`
arithmetic), whether or not the publisher is connected, and publishes `"message N"`, for the
value `N` the counter had before the firing, only when the publisher is connected. Hence over
every event sequence the counter has advanced by the number of firings, and the heartbeats
published are those of `heartbeatsFrom`: the firing number `j` (counting all firings) carries
the starting value plus `j`, and a firing while not connected uses up its number without
publishing. -/
theorem counter_advances_on_every_firing (c : Client) (evs : List Event)
    (hw : Wired c) (hc : c.counter < sizeModulus) :
    (onPublishTimeout c).counter = (c.counter + 1) % sizeModulus ∧
    publishes (issued c (onPublishTimeout c)) =
      (if isConnected .publisher c then
        [(c.ioService.now, .publisher, channelName, "message " ++ toString c.counter)]
       else []) ∧
    (run c evs).counter = (c.counter + (firingLog c evs).length) % sizeModulus ∧
    (publishes (issued c (run c evs))).map (fun p => p.2.2.2) =
      heartbeatsFrom c.counter (firingLog c evs) := by
  obtain ⟨h1, h2⟩ := heartbeats_run evs c hw
  rw [Nat.mod_eq_of_lt (run_counter_lt evs c hw hc)] at h1
  refine ⟨by rw [onPublishTimeout_eq], ?_, h1, h2⟩
  by_cases h : c.publisher.state = .Connected <;>
    simp [onPublishTimeout_eq, h, issued, isConnected, Client.conn, publishes]

/-- C5 (amended), for the scenario with a connection flicker. -/
theorem counter_advances_on_every_firing_witness :
    Wired (Client.new "127.0.0.1" 6379) ∧
    (Client.new "127.0.0.1" 6379).counter < sizeModulus ∧
    firingLog (Client.new "127.0.0.1" 6379) flickerEvents = [false, true] ∧
    heartbeatsFrom 0 [false, true] = ["message 1"] ∧
    (publishes (issued (Client.new "127.0.0.1" 6379)
        (run (Client.new "127.0.0.1" 6379) flickerEvents))).map (fun p => p.2.2.2) =
      heartbeatsFrom (Client.new "127.0.0.1" 6379).counter
        (firingLog (Client.new "127.0.0.1" 6379) flickerEvents) :=
  ⟨by decide, by decide, by decide, by decide,
    (counter_advances_on_every_firing (Client.new "127.0.0.1" 6379) flickerEvents
      (by decide) (by decide)).2.2.2⟩

/-! ## Heartbeats after a successful connect -/

/-- A deliverable event that leaves the publisher connection alone keeps the publisher beating;
the publish timer can only fire at its expiry, and then one more heartbeat has been published. -/
theorem beating_step {t c₀ j : Nat} {s : Client} (h : Beating t c₀ j s) (e : Event)
    (hq : publisherQuiet e = true) (he : enabled s e = true) :
    (e = .timerExpired .publishTimer →
      s.ioService.now = t + (j + 1) * timeout ∧ Beating t c₀ (j + 1) (dispatch s e)) ∧
    (e ≠ .timerExpired .publishTimer → Beating t c₀ j (dispatch s e)) := by
  obtain ⟨hw, hs, hp, hn, hc⟩ := h
  have hw' := wired_dispatch hw e
  obtain ⟨h1, h2, h3, h4, h5⟩ := hw
  cases e with
  | start => simp [publisherQuiet] at hq
  | connectCompleted r status error =>
      cases r
      · simp [publisherQuiet] at hq
      · cases status <;>
          simp_all [Beating, dispatch, connectHandler, invokeConnectHandler, connCompleted,
            onSubscriberConnected_eq, Client.setConn, Client.conn]
  | transportError r error =>
      cases r
      · simp [publisherQuiet] at hq
      · simp_all [Beating, dispatch, errorHandler, Client.conn, invokeMethod,
          connectSubscriber_eq]
  | timerExpired tm =>
      cases tm
      · simp only [enabled, Client.timer, hp, Bool.and_eq_true, decide_eq_true_eq] at he
        have hnow : s.ioService.now = t + (j + 1) * timeout := by omega
        refine ⟨fun _ => ⟨hnow, hw', ?_, ?_, ?_, ?_⟩, fun h => absurd rfl h⟩
        · simp [dispatch, Client.timer, hp, waitHandler, invokeMethod, onPublishTimeout_eq,
            Client.setTimer, hs]
        · simp [dispatch, Client.timer, hp, waitHandler, invokeMethod, onPublishTimeout_eq,
            Client.setTimer, hnow]
          ring
        · simp only [dispatch, Client.timer, hp, waitHandler, invokeMethod, onPublishTimeout_eq,
            Client.setTimer, if_true, hnow]
          exact Nat.add_le_add_left (Nat.mul_le_mul_right _ (by omega)) _
        · simp [dispatch, Client.timer, hp, waitHandler, invokeMethod, onPublishTimeout_eq,
            Client.setTimer, hc, sizeModulus]
          omega
      · cases hp5 : s.connectSubscriberTimer.pending with
        | nil => simp [enabled, Client.timer, hp5] at he
        | cons callback rest =>
            have hcb : callback = .connectSubscriber := h5 _ (by simp [hp5])
            subst hcb
            refine ⟨fun h => by simp at h, fun _ => ⟨hw', ?_, ?_, ?_, ?_⟩⟩ <;>
              simp [dispatch, Client.timer, hp5, waitHandler, invokeMethod, connectSubscriber_eq,
                Client.setTimer, hs, hp, hn, hc]
      · simp [publisherQuiet] at hq
  | waitAborted =>
      cases ha : s.ioService.aborted with
      | nil => simp [enabled, ha] at he
      | cons x rest =>
          refine ⟨fun h => by simp at h, fun _ => ⟨hw', ?_, ?_, ?_, ?_⟩⟩ <;>
            simp [dispatch, ha, waitHandler, hs, hp, hn, hc]
  | message buf =>
      refine ⟨fun h => by simp at h, fun _ => ⟨hw', ?_, ?_, ?_, ?_⟩⟩ <;>
        simp [dispatch, onMessage, Client.emit, hs, hp, hn, hc]
  | connectionState r st =>
      cases r
      · simp [publisherQuiet] at hq
      · refine ⟨fun h => by simp at h, fun _ => ⟨hw', ?_, ?_, ?_, ?_⟩⟩ <;>
          simp [dispatch, connSetState, Client.setConn, hs, hp, hn, hc]
  | elapse d =>
      simp only [enabled, allTimers, List.all_cons, Client.timer, hp, Bool.and_eq_true,
        Bool.or_eq_true, decide_eq_true_eq] at he
      have := he.1
      refine ⟨fun h => by simp at h, fun _ => ⟨hw', ?_, ?_, ?_, ?_⟩⟩ <;>
        simp_all [dispatch]

/-- The heartbeats of a deliverable run that leaves a beating publisher alone: one per firing,
`timeout` apart, numbered consecutively. -/
theorem beating_exec {t c₀ : Nat} (evs : List Event) : ∀ (s d : Client) (j : Nat),
    Beating t c₀ j s → exec s evs = some d → evs.all publisherQuiet = true →
    publishes (issued s d) =
      (List.range (evs.count (.timerExpired .publishTimer))).map fun k =>
        (t + (j + k + 1) * timeout, Role.publisher, channelName,
          "message " ++ toString ((c₀ + (j + k)) % sizeModulus)) := by
  induction evs with
  | nil =>
      intro s d j _ h _
      simp only [exec, Option.some.injEq] at h
      subst h
      simp [issued, publishes]
  | cons e evs ih =>
      intro s d j hb h hq
      have hd := exec_eq_run _ h
      rw [exec] at h
      split_ifs at h with he
      rw [List.all_cons, Bool.and_eq_true] at hq
      obtain ⟨hfire, hother⟩ := beating_step hb e hq.1 he
      have hpub := (dispatch_counter_publishes hb.1 e).2
      rw [hd, issued_run_cons, publishes, List.filterMap_append, ← publishes, ← publishes,
        ← exec_eq_run _ h, hpub]
      by_cases hev : e = .timerExpired .publishTimer
      · subst hev
        obtain ⟨hnow, hb'⟩ := hfire rfl
        rw [ih _ _ _ hb' h hq.2, List.count_cons_self, List.range_succ_eq_map, List.map_cons,
          List.map_map]
        have hf : publishTimerFires s (.timerExpired .publishTimer) = true := by
          simp [publishTimerFires, hb.2.2.1]
        have hc : isConnected .publisher s = true := by
          simp [isConnected, Client.conn, hb.2.1]
        rw [hf, hc, Bool.and_self, if_pos rfl, List.singleton_append, hnow, hb.2.2.2.2]
        refine congrArg₂ List.cons rfl ?_
        apply List.map_congr_left
        intro k _
        simp only [Function.comp, Nat.succ_eq_add_one]
        have e1 : j + 1 + k + 1 = j + (k + 1) + 1 := by omega
        have e2 : c₀ + (j + 1 + k) = c₀ + (j + (k + 1)) := by omega
        rw [e1, e2]
      · have hf : publishTimerFires s e = false := by
          simp [publishTimerFires, hev]
        rw [ih _ _ _ (hother hev) h hq.2, hf, List.count_cons_of_ne (Ne.symm hev)]
        simp

/-- A deliverable event after which the publisher still reports connected, and which is not
a successful publisher completion, keeps the publisher beating: `start()`, a transport error on
the publisher, a failed publisher completion and a firing of the publisher retry timer all make
the publisher leave `Connected`. -/
theorem beating_step_connected {t c₀ j : Nat} {s : Client} (h : Beating t c₀ j s) (e : Event)
    (hn : ∀ text, e ≠ .connectCompleted .publisher true text)
    (hk : isConnected .publisher (dispatch s e) = true) (he : enabled s e = true) :
    (e = .timerExpired .publishTimer →
      s.ioService.now = t + (j + 1) * timeout ∧ Beating t c₀ (j + 1) (dispatch s e)) ∧
    (e ≠ .timerExpired .publishTimer → Beating t c₀ j (dispatch s e)) := by
  by_cases hq : publisherQuiet e = true
  · exact beating_step h e hq he
  · obtain ⟨hw, hs, hp, hnow, hc⟩ := h
    have hw' := wired_dispatch hw e
    obtain ⟨h1, h2, h3, h4, h5⟩ := hw
    cases e with
    | start =>
        by_cases hss : s.subscriber.state = .Connected <;>
          simp [dispatch, start, connectPublisher_eq, connectSubscriber_eq, isConnected,
            Client.conn, hs, hss] at hk
    | connectCompleted r status error =>
        cases r
        · cases status
          · simp [dispatch, connectHandler, invokeConnectHandler, connCompleted,
              onPublisherConnected_eq, Client.setConn, Client.conn, isConnected] at hk
          · exact absurd rfl (hn error)
        · simp [publisherQuiet] at hq
    | transportError r error =>
        cases r
        · simp [dispatch, errorHandler, Client.conn, h1, invokeMethod, connectPublisher_eq,
            isConnected, hs] at hk
        · simp [publisherQuiet] at hq
    | timerExpired tm =>
        cases tm
        · simp [publisherQuiet] at hq
        · simp [publisherQuiet] at hq
        · cases hp4 : s.connectPublisherTimer.pending with
          | nil => simp [enabled, Client.timer, hp4] at he
          | cons callback rest =>
              have hcb : callback = .connectPublisher := h4 _ (by simp [hp4])
              subst hcb
              simp [dispatch, Client.timer, hp4, waitHandler, invokeMethod, connectPublisher_eq,
                Client.setTimer, isConnected, Client.conn, hs] at hk
    | waitAborted => simp [publisherQuiet] at hq
    | message buf => simp [publisherQuiet] at hq
    | connectionState r st =>
        cases r
        · have hst : st = .Connected := by
            simpa [dispatch, connSetState, Client.setConn, Client.conn, isConnected] using hk
          subst hst
          refine ⟨fun h => by simp at h, fun _ => ⟨hw', ?_, ?_, ?_, ?_⟩⟩ <;>
            simp [dispatch, connSetState, Client.setConn, Client.conn, hs, hp, hnow, hc]
        · simp [publisherQuiet] at hq
    | elapse d => simp [publisherQuiet] at hq

/-- The heartbeats of a deliverable run throughout which a beating publisher stays connected
and gets no further successful completion: one per firing, `timeout` apart, numbered
consecutively. -/
theorem beating_exec_connected {t c₀ : Nat} (evs : List Event) : ∀ (s d : Client) (j : Nat),
    Beating t c₀ j s → exec s evs = some d →
    (∀ k, k ≤ evs.length → isConnected .publisher (run s (evs.take k)) = true) →
    (∀ text, .connectCompleted .publisher true text ∉ evs) →
    publishes (issued s d) =
      (List.range (evs.count (.timerExpired .publishTimer))).map fun k =>
        (t + (j + k + 1) * timeout, Role.publisher, channelName,
          "message " ++ toString ((c₀ + (j + k)) % sizeModulus)) := by
  induction evs with
  | nil =>
      intro s d j _ h _ _
      simp only [exec, Option.some.injEq] at h
      subst h
      simp [issued, publishes]
  | cons e evs ih =>
      intro s d j hb h hk hn
      have hd := exec_eq_run _ h
      rw [exec] at h
      split_ifs at h with he
      have hk1 : isConnected .publisher (dispatch s e) = true := by
        simpa [run] using hk 1 (by simp)
      have hk' : ∀ k, k ≤ evs.length →
          isConnected .publisher (run (dispatch s e) (evs.take k)) = true := by
        intro k hle
        simpa [run] using hk (k + 1) (by simpa using hle)
      have hn1 : ∀ text, e ≠ .connectCompleted .publisher true text := by
        intro text heq
        exact hn text (by simp [heq])
      have hn' : ∀ text, .connectCompleted .publisher true text ∉ evs := by
        intro text hmem
        exact hn text (List.mem_cons_of_mem _ hmem)
      obtain ⟨hfire, hother⟩ := beating_step_connected hb e hn1 hk1 he
      have hpub := (dispatch_counter_publishes hb.1 e).2
      rw [hd, issued_run_cons, publishes, List.filterMap_append, ← publishes, ← publishes,
        ← exec_eq_run _ h, hpub]
      by_cases hev : e = .timerExpired .publishTimer
      · subst hev
        obtain ⟨hnow, hb'⟩ := hfire rfl
        rw [ih _ _ _ hb' h hk' hn', List.count_cons_self, List.range_succ_eq_map, List.map_cons,
          List.map_map]
        have hf : publishTimerFires s (.timerExpired .publishTimer) = true := by
          simp [publishTimerFires, hb.2.2.1]
        have hc : isConnected .publisher s = true := by
          simp [isConnected, Client.conn, hb.2.1]
        rw [hf, hc, Bool.and_self, if_pos rfl, List.singleton_append, hnow, hb.2.2.2.2]
        refine congrArg₂ List.cons rfl ?_
        apply List.map_congr_left
        intro k _
        simp only [Function.comp, Nat.succ_eq_add_one]
        have e1 : j + 1 + k + 1 = j + (k + 1) + 1 := by omega
        have e2 : c₀ + (j + 1 + k) = c₀ + (j + (k + 1)) := by omega
        rw [e1, e2]
      · have hf : publishTimerFires s e = false := by
          simp [publishTimerFires, hev]
        rw [ih _ _ _ (hother hev) h hk' hn', hf, List.count_cons_of_ne (Ne.symm hev)]
        simp

/-- With the publish timer armed for `timeout` from now and no other timer pending, the loop can
deliver any number of firings `timeout` apart. -/
theorem heartbeat_schedule_exec (n : Nat) : ∀ s : Client,
    s.publishTimer = { expiry := s.ioService.now + timeout, pending := [.onPublishTimeout] } →
    s.connectSubscriberTimer.pending = [] → s.connectPublisherTimer.pending = [] →
    exec s (heartbeatSchedule n) = some (run s (heartbeatSchedule n)) := by
  induction n with
  | zero => intro s _ _ _; rfl
  | succ n ih =>
      intro s hp h1 h2
      have hstep : exec s (heartbeatSchedule (n + 1)) =
          exec (run s [.elapse timeout, .timerExpired .publishTimer]) (heartbeatSchedule n) := by
        simp [heartbeatSchedule, exec, enabled, allTimers, Client.timer, hp, h1, h2, dispatch,
          run]
      rw [hstep, ih]
      · rfl
      · simp [run, dispatch, Client.timer, hp, waitHandler, invokeMethod, onPublishTimeout_eq,
          Client.setTimer]
      · simp [run, dispatch, Client.timer, hp, waitHandler, invokeMethod, onPublishTimeout_eq,
          Client.setTimer, h1]
      · simp [run, dispatch, Client.timer, hp, waitHandler, invokeMethod, onPublishTimeout_eq,
          Client.setTimer, h2]

/-- The periodic schedule leaves the publisher connection alone and holds `n` firings. -/
theorem heartbeatSchedule_quiet (n : Nat) :
    (heartbeatSchedule n).all publisherQuiet = true ∧
      (heartbeatSchedule n).count (.timerExpired .publishTimer) = n := by
  induction n with
  | zero => simp [heartbeatSchedule]
  | succ n ih => simp [heartbeatSchedule, publisherQuiet, ih.1, ih.2]

/-- After a successful publisher connect completion the publisher is beating. -/
theorem beating_after_connect {c : Client} (hw : Wired c) (hc : c.counter < sizeModulus)
    (error : String) :
    Beating c.ioService.now c.counter 0 (dispatch c (.connectCompleted .publisher true error)) := by
  refine ⟨wired_dispatch hw _, ?_, ?_, ?_, ?_⟩ <;>
    simp [dispatch, connectHandler, invokeConnectHandler, connCompleted,
      onPublisherConnected_eq, Client.setConn, Client.conn, Nat.mod_eq_of_lt hc]

/-- C8 (amended): let a publisher connect complete successfully at loop time `t` with counter
value `c`. In every run the loop can deliver afterwards in which the publisher reports
connected at every point and no further successful connect completion is delivered to it
(an error-handler invocation is thereby excluded as well: it makes the publisher leave
`Connected`), the heartbeats published are exactly one per firing of the publish timer, the
`k`-th (`k = 1, 2, ...`) at time `t + k * 1 s` with payload `"message "` followed by
`(c + k - 1) mod 2 ^ 64`, and nothing is published at any other time; and when no retry timer
is pending, the run consisting of `n` such firings can be delivered, for every `n`. -/
theorem heartbeats_one_timeout_apart (c : Client) (error : String)
    (hw : Wired c) (hc : c.counter < sizeModulus) :
    (∀ evs d, exec c (.connectCompleted .publisher true error :: evs) = some d →
      (∀ k, k ≤ evs.length → isConnected .publisher
        (run c (.connectCompleted .publisher true error :: evs.take k)) = true) →
      evs.any (isSuccess .publisher) = false →
      publishes (issued c d) =
        (List.range (evs.count (.timerExpired .publishTimer))).map fun k =>
          (c.ioService.now + (k + 1) * seconds 1, Role.publisher,
            "unique-redis-channel-name-example",
            "message " ++ toString ((c.counter + k) % sizeModulus))) ∧
    (0 < c.publisher.inFlight → c.connectSubscriberTimer.pending = [] →
      c.connectPublisherTimer.pending = [] → ∀ n,
      exec c (.connectCompleted .publisher true error :: heartbeatSchedule n) =
        some (run c (.connectCompleted .publisher true error :: heartbeatSchedule n)) ∧
      publishes (issued c
          (run c (.connectCompleted .publisher true error :: heartbeatSchedule n))) =
        (List.range n).map fun k =>
          (c.ioService.now + (k + 1) * seconds 1, Role.publisher,
            "unique-redis-channel-name-example",
            "message " ++ toString ((c.counter + k) % sizeModulus))) := by
  have hb := beating_after_connect hw hc error
  have hp0 := (dispatch_counter_publishes hw (.connectCompleted .publisher true error)).2
  have hf0 : publishTimerFires c (.connectCompleted .publisher true error) = false := by
    simp [publishTimerFires]
  rw [hf0] at hp0
  have key : ∀ evs d, exec c (.connectCompleted .publisher true error :: evs) = some d →
      evs.all publisherQuiet = true →
      publishes (issued c d) =
        (List.range (evs.count (.timerExpired .publishTimer))).map fun k =>
          (c.ioService.now + (k + 1) * seconds 1, Role.publisher,
            "unique-redis-channel-name-example",
            "message " ++ toString ((c.counter + k) % sizeModulus)) := by
    intro evs d h hq
    have hd := exec_eq_run _ h
    rw [exec] at h
    split_ifs at h
    have := beating_exec evs _ d 0 hb h hq
    rw [hd, issued_run_cons, publishes, List.filterMap_append, ← publishes, ← publishes,
      ← exec_eq_run _ h, hp0, this]
    simp [timeout, channelName]
  refine ⟨?_, ?_⟩
  · intro evs d h hk hn
    have hd := exec_eq_run _ h
    rw [exec] at h
    split_ifs at h
    have hn' : ∀ text, Event.connectCompleted .publisher true text ∉ evs := by
      intro text hmem
      have : evs.any (isSuccess .publisher) = true :=
        List.any_eq_true.mpr ⟨_, hmem, by simp [isSuccess]⟩
      rw [hn] at this
      exact Bool.false_ne_true this
    have := beating_exec_connected evs _ d 0 hb h
      (fun k hle => by simpa [run] using hk k hle) hn'
    rw [hd, issued_run_cons, publishes, List.filterMap_append, ← publishes, ← publishes,
      ← exec_eq_run _ h, hp0, this]
    simp [timeout, channelName]
  intro hfl h1 h2 n
  have hex : exec c (.connectCompleted .publisher true error :: heartbeatSchedule n) =
      some (run c (.connectCompleted .publisher true error :: heartbeatSchedule n)) := by
    rw [exec, if_pos (by simp [enabled, Client.conn, hfl])]
    rw [heartbeat_schedule_exec n _ (by
        simp [dispatch, connectHandler, invokeConnectHandler, connCompleted,
          onPublisherConnected_eq, Client.setConn, Client.conn])
      (by
        simp [dispatch, connectHandler, invokeConnectHandler, connCompleted,
          onPublisherConnected_eq, Client.setConn, Client.conn, h1])
      (by
        simp [dispatch, connectHandler, invokeConnectHandler, connCompleted,
          onPublisherConnected_eq, Client.setConn, Client.conn, h2])]
    rfl
  refine ⟨hex, ?_⟩
  have := key _ _ hex (heartbeatSchedule_quiet n).1
  rw [(heartbeatSchedule_quiet n).2] at this
  exact this

/-- C8 (amended), for the first three heartbeats after `start()`, and for two heartbeats with
the subscriber failing, reconnecting and failing again in between. -/
theorem heartbeats_one_timeout_apart_witness :
    Wired startedClient ∧ startedClient.counter < sizeModulus ∧
    exec startedClient (.connectCompleted .publisher true "" :: heartbeatSchedule 3) =
      some (run startedClient (.connectCompleted .publisher true "" :: heartbeatSchedule 3)) ∧
    publishes (issued startedClient
        (run startedClient (.connectCompleted .publisher true "" :: heartbeatSchedule 3))) =
      [(1000000, .publisher, "unique-redis-channel-name-example", "message 0"),
       (2000000, .publisher, "unique-redis-channel-name-example", "message 1"),
       (3000000, .publisher, "unique-redis-channel-name-example", "message 2")] ∧
    exec startedClient (.connectCompleted .publisher true "" :: interleavedHeartbeats) =
      some (run startedClient (.connectCompleted .publisher true "" :: interleavedHeartbeats)) ∧
    publishes (issued startedClient
        (run startedClient (.connectCompleted .publisher true "" :: interleavedHeartbeats))) =
      [(1000000, .publisher, "unique-redis-channel-name-example", "message 0"),
       (2000000, .publisher, "unique-redis-channel-name-example", "message 1")] :=
  ⟨by decide, by decide,
    ((heartbeats_one_timeout_apart startedClient "" (by decide) (by decide)).2
      (by decide) (by decide) (by decide) 3).1,
    ((heartbeats_one_timeout_apart startedClient "" (by decide) (by decide)).2
      (by decide) (by decide) (by decide) 3).2,
    by rfl,
    (heartbeats_one_timeout_apart startedClient "" (by decide) (by decide)).1
      interleavedHeartbeats _ (by rfl) (by decide) (by decide)⟩

/-- C8 (as stated, refuted), twice over. With two publisher connects in flight, the first
completes successfully at time 0 with counter 0 and the second, also successfully, half a
second later: the publisher reports connected at every point afterwards and no error handler
runs, yet the second completion re-arms the publish timer and the first two heartbeats are
published at 1.5 s and 2.5 s, not at 1 s and 2 s. And with the counter at
`SIZE_MAX = 2 ^ 64 - 1` when the connect completes, the second heartbeat carries
`"message 0"`, not `"message 18446744073709551616"`: `counter++` is `size_t` arithmetic. -/
theorem heartbeats_shift_after_stale_completion_or_wrap :
    exec (Client.new "127.0.0.1" 6379) [.start, .transportError .publisher "End of file"] =
      some twoInFlight ∧
    twoInFlight.ioService.now = 0 ∧ twoInFlight.counter = 0 ∧
    exec twoInFlight staleSuccess = some (run twoInFlight staleSuccess) ∧
    ((List.range 7).all fun k =>
      isConnected .publisher (run twoInFlight (staleSuccess.take (k + 1)))) = true ∧
    publishes (issued twoInFlight (run twoInFlight staleSuccess)) =
      [(1500000, .publisher, "unique-redis-channel-name-example", "message 0"),
       (2500000, .publisher, "unique-redis-channel-name-example", "message 1")] ∧
    (0 + 1 * seconds 1, Role.publisher, "unique-redis-channel-name-example", "message 0") ∉
      publishes (issued twoInFlight (run twoInFlight staleSuccess)) ∧
    wrappingClient.counter = 18446744073709551615 ∧
    exec wrappingClient (.connectCompleted .publisher true "" :: heartbeatSchedule 2) =
      some (run wrappingClient (.connectCompleted .publisher true "" :: heartbeatSchedule 2)) ∧
    publishes (issued wrappingClient
        (run wrappingClient (.connectCompleted .publisher true "" :: heartbeatSchedule 2))) =
      [(1000000, .publisher, "unique-redis-channel-name-example",
          "message 18446744073709551615"),
       (2000000, .publisher, "unique-redis-channel-name-example", "message 0")] ∧
    "message 0" ≠ "message " ++ toString (wrappingClient.counter + 2 - 1) := by
  refine ⟨by rfl, by decide, by decide, by rfl, by decide, by decide, by decide, by decide,
    by rfl, by decide, by decide⟩

/-! ## Scenarios and composition -/

/-- C11: in the broker-outage scenario on the client of `main` the loop can deliver every
event; the publisher issues four connects, one per attempt, to `127.0.0.1:6379`, exactly one
second apart; nothing is published up to and including the successful completion (at 3 s);
and afterwards exactly `"message 0"` and `"message 1"` are published on the fixed channel, one
second and two seconds after the successful completion. -/
theorem outage_scenario :
    exec (Client.new "127.0.0.1" 6379) brokerOutage =
      some (run (Client.new "127.0.0.1" 6379) brokerOutage) ∧
    connects .publisher (run (Client.new "127.0.0.1" 6379) brokerOutage).trace =
      [(0, "127.0.0.1", 6379), (1000000, "127.0.0.1", 6379), (2000000, "127.0.0.1", 6379),
       (3000000, "127.0.0.1", 6379)] ∧
    publishes (run (Client.new "127.0.0.1" 6379) (brokerOutage.take 11)).trace = [] ∧
    (run (Client.new "127.0.0.1" 6379) (brokerOutage.take 11)).ioService.now = 3000000 ∧
    publishes (run (Client.new "127.0.0.1" 6379) brokerOutage).trace =
      [(4000000, .publisher, "unique-redis-channel-name-example", "message 0"),
       (5000000, .publisher, "unique-redis-channel-name-example", "message 1")] := by
  refine ⟨by rfl, by decide, by decide, by decide, by decide⟩

/-- C15: from the freshly constructed client `start()` issues exactly two commands, a
`connect` on the publisher and a `connect` on the subscriber, both to the configured address
and port; it issues no `disconnect`, `publish` or `subscribe`, arms no timer and leaves the
three timers as they were; and the state reached does not depend on which of the two connect
functions runs first (from the fresh client and from every other state). -/
theorem start_connects_both_roles (address : String) (port : Nat) (c : Client) :
    (start (Client.new address port)).trace = (Client.new address port).trace ++
      [(0, .cerr "connectPublisher\n"),
       (0, .connect .publisher address port .onPublisherConnected),
       (0, .cerr "connectSubscriber\n"),
       (0, .connect .subscriber address port .onSubscriberConnected)] ∧
    commands (issued (Client.new address port) (start (Client.new address port))) =
      [(0, .connect .publisher address port .onPublisherConnected),
       (0, .connect .subscriber address port .onSubscriberConnected)] ∧
    armings (issued (Client.new address port) (start (Client.new address port))) = [] ∧
    (start (Client.new address port)).publishTimer = (Client.new address port).publishTimer ∧
    (start (Client.new address port)).connectPublisherTimer =
      (Client.new address port).connectPublisherTimer ∧
    (start (Client.new address port)).connectSubscriberTimer =
      (Client.new address port).connectSubscriberTimer ∧
    (connectSubscriber (connectPublisher (Client.new address port))).members =
      (connectPublisher (connectSubscriber (Client.new address port))).members ∧
    (connectSubscriber (connectPublisher c)).members =
      (connectPublisher (connectSubscriber c)).members := by
  have hn : (Client.new address port).publisher.state = .Disconnected := rfl
  have hs : (Client.new address port).subscriber.state = .Disconnected := rfl
  have ha : (Client.new address port).address = address := rfl
  have hp : (Client.new address port).port = port := rfl
  have ht : (Client.new address port).ioService.now = 0 := rfl
  have comm : ∀ c : Client, (connectSubscriber (connectPublisher c)).members =
      (connectPublisher (connectSubscriber c)).members := by
    intro c
    by_cases h1 : c.publisher.state = .Connected <;>
      simp [connectPublisher_eq, connectSubscriber_eq, h1, Client.members]
  refine ⟨?_, ?_, ?_, ?_, ?_, ?_, comm _, comm c⟩ <;>
    simp [start, connectPublisher_eq, connectSubscriber_eq, hn, hs, ha, hp, ht, issued,
      commands, armings]

/-- C16: for every message and every state, whatever the connection reports,
`Client::publish` records exactly one `publish` of the message on the fixed channel on the
publisher connection and changes nothing else: not the subscriber, not the timers, not the
counter. -/
theorem publish_delegates (m : String) (c : Client) :
    publish m c =
      { c with trace := c.trace ++
          [(c.ioService.now, .publish .publisher "unique-redis-channel-name-example" m)] } ∧
    commands (issued c (publish m c)) =
      [(c.ioService.now, .publish .publisher "unique-redis-channel-name-example" m)] := by
  refine ⟨rfl, ?_⟩
  simp [publish, connPublish, Client.emit, issued, commands, channelName]

/-- C18: `errorSubProxy` is `connectSubscriber` in every state; `errorPubProxy` gives the
connections the same commands as `connectPublisher` in every state, and reaches the same state
exactly when the publisher reports connected or `publishTimer` has no pending wait; the error
text is ignored by both proxies. -/
theorem proxies_agree_up_to_guard (c : Client) (e e' : String) :
    errorSubProxy e c = connectSubscriber c ∧
    errorPubProxy e c = errorPubProxy e' c ∧
    commands (issued c (errorPubProxy e c)) = commands (issued c (connectPublisher c)) ∧
    ((errorPubProxy e c).members = (connectPublisher c).members ↔
      (isConnected .publisher c = true ∨ c.publishTimer.pending = [])) := by
  have hcancel : timerCancel .publishTimer c =
      { c with
        ioService :=
          { c.ioService with
            aborted := c.ioService.aborted ++
              c.publishTimer.pending.map fun m => (TimerId.publishTimer, m) }
        publishTimer := { c.publishTimer with pending := [] }
        trace := c.trace ++ [(c.ioService.now, .cancel .publishTimer)] } := by
    simp [timerCancel, Client.emit, Client.setTimer, Client.timer, Client.abort]
  refine ⟨rfl, rfl, ?_, ?_⟩
  · by_cases h : c.publisher.state = .Connected <;>
      simp [errorPubProxy, hcancel, connectPublisher_eq, h, issued, commands]
  · by_cases h : c.publisher.state = .Connected
    · simp [errorPubProxy, hcancel, connectPublisher_eq, h, Client.members, isConnected,
        Client.conn]
    · simp only [errorPubProxy, hcancel, connectPublisher_eq, h, Client.members, isConnected,
        Client.conn, if_false, decide_False, Bool.false_eq_true, false_or, Client.mk.injEq,
        and_true, true_and]
      constructor
      · rintro ⟨_, h2⟩
        exact (congrArg DeadlineTimer.pending h2).symm
      · intro hp
        rw [hp]
        exact ⟨by simp, by rw [← hp]⟩

/-! ## Timers -/

/-- Calling a member function keeps at most one wait pending per timer. -/
theorem atMostOne_invokeMethod {c : Client} (h : AtMostOne c) (m : Method) :
    AtMostOne (invokeMethod m c) := by
  obtain ⟨h1, h2, h3⟩ := h
  cases m
  · simp only [invokeMethod, connectPublisher_eq]
    split_ifs
    · exact ⟨by simp, h2, h3⟩
    · exact ⟨h1, h2, h3⟩
  · simp only [invokeMethod, connectSubscriber_eq]
    exact ⟨h1, h2, h3⟩
  · simp only [invokeMethod, onPublishTimeout_eq]
    exact ⟨by simp, h2, h3⟩

/-- Every event keeps at most one wait pending per timer. -/
theorem atMostOne_dispatch {c : Client} (h : AtMostOne c) (e : Event) :
    AtMostOne (dispatch c e) := by
  have h0 := h
  obtain ⟨h1, h2, h3⟩ := h
  cases e with
  | start =>
      exact atMostOne_invokeMethod (atMostOne_invokeMethod h0 .connectPublisher)
        .connectSubscriber
  | connectCompleted r status error =>
      cases r <;> cases status
      · simp only [dispatch, connectHandler, invokeConnectHandler, onPublisherConnected_eq]
        exact ⟨h1, h2, by simp⟩
      · simp only [dispatch, connectHandler, invokeConnectHandler, onPublisherConnected_eq]
        exact ⟨by simp, h2, h3⟩
      · simp only [dispatch, connectHandler, invokeConnectHandler, onSubscriberConnected_eq]
        exact ⟨h1, by simp, h3⟩
      · simp only [dispatch, connectHandler, invokeConnectHandler, onSubscriberConnected_eq]
        exact ⟨h1, h2, h3⟩
  | transportError r error =>
      simp only [dispatch, errorHandler]
      split
      · exact atMostOne_invokeMethod h0 _
      · exact h0
  | timerExpired t =>
      simp only [dispatch]
      split
      · exact h0
      · rename_i callback rest hp
        rw [waitHandler, if_pos rfl]
        apply atMostOne_invokeMethod
        cases t
        · simp only [Client.timer] at hp
          have hr : rest = [] := by rw [hp] at h1; simpa using h1
          exact ⟨by simp [Client.setTimer, hr], h2, h3⟩
        · simp only [Client.timer] at hp
          have hr : rest = [] := by rw [hp] at h2; simpa using h2
          exact ⟨h1, by simp [Client.setTimer, hr], h3⟩
        · simp only [Client.timer] at hp
          have hr : rest = [] := by rw [hp] at h3; simpa using h3
          exact ⟨h1, h2, by simp [Client.setTimer, hr]⟩
  | waitAborted =>
      simp only [dispatch]
      split
      · exact h0
      · exact ⟨h1, h2, h3⟩
  | message buf => exact ⟨h1, h2, h3⟩
  | connectionState r s => cases r <;> exact ⟨h1, h2, h3⟩
  | elapse d => exact ⟨h1, h2, h3⟩

/-- Every run keeps at most one wait pending per timer. -/
theorem atMostOne_run (evs : List Event) : ∀ {c : Client}, AtMostOne c →
    AtMostOne (run c evs) := by
  induction evs with
  | nil => intro c h; exact h
  | cons e evs ih => intro c h; exact ih (atMostOne_dispatch h e)

/-- C12: for each of the three timers, in every state reached from the freshly constructed
client by any sequence of events, at most one wait is pending. Arming a timer through
`callLater` leaves it with the new wait only (expiring one second from now) and moves the
waits pending before to the queue of aborted completions; the completion of an aborted wait
carries `operation_aborted`, for which the handler does nothing: delivering it only removes it
from the queue. A wait that expires is completed without error: it is removed from the timer
and its callback is invoked, once. -/
theorem timers_hold_at_most_one_wait (address : String) (port : Nat) (evs : List Event)
    (t : TimerId) (m : Method) (c : Client) (x : Nat) (queue : List (TimerId × Method)) :
    ((run (Client.new address port) evs).timer t).pending.length ≤ 1 ∧
    (callLater t m c).timer t =
      { expiry := c.ioService.now + seconds 1, pending := [m] } ∧
    (callLater t m c).ioService.aborted =
      c.ioService.aborted ++ (c.timer t).pending.map (fun k => (t, k)) ∧
    waitHandler m .operation_aborted c = c ∧
    dispatch { c with ioService := { c.ioService with aborted := (t, m) :: queue } }
        .waitAborted =
      { c with ioService := { c.ioService with aborted := queue } } ∧
    waitHandler m .success c = invokeMethod m c ∧
    dispatch (c.setTimer t { expiry := x, pending := [m] }) (.timerExpired t) =
      invokeMethod m (c.setTimer t { expiry := x, pending := [] }) := by
  have hnew : AtMostOne (Client.new address port) := ⟨Nat.zero_le 1, Nat.zero_le 1, Nat.zero_le 1⟩
  obtain ⟨h1, h2, h3⟩ := atMostOne_run evs hnew
  refine ⟨?_, ?_, ?_, ?_, ?_, ?_, ?_⟩
  · cases t
    · exact h1
    · exact h2
    · exact h3
  · cases t <;> simp [callLater_eq, Client.setTimer, Client.timer, timeout]
  · cases t <;> simp [callLater_eq, Client.setTimer, Client.timer]
  · simp [waitHandler]
  · simp [dispatch, waitHandler]
  · simp [waitHandler]
  · cases t <;> simp [dispatch, Client.setTimer, Client.timer, waitHandler]

/-! ## The two roles do not interfere -/

/-- An event of the subscriber alone leaves the publisher's part of the state as it is and
gives the publisher connection no command. -/
theorem publisher_part_frame {c : Client} (hw : Wired c) (e : Event)
    (he : subscriberEvent e = true) :
    publisherPart (dispatch c e) = publisherPart c ∧
      roleCommands .publisher (issued c (dispatch c e)) = [] := by
  obtain ⟨h1, h2, h3, h4, h5⟩ := hw
  cases e with
  | start => simp [subscriberEvent] at he
  | connectCompleted r status error =>
      cases r
      · simp [subscriberEvent] at he
      · cases status <;>
          simp [dispatch, connectHandler, invokeConnectHandler, connCompleted,
            onSubscriberConnected_eq, Client.setConn, Client.conn, publisherPart, issued,
            roleCommands]
  | transportError r error =>
      cases r
      · simp [subscriberEvent] at he
      · by_cases hs : c.subscriber.state = .Connected <;>
          simp [dispatch, errorHandler, Client.conn, h2, invokeMethod, connectSubscriber_eq, hs,
            publisherPart, issued, roleCommands]
  | timerExpired t =>
      cases t
      · simp [subscriberEvent] at he
      · cases hp : c.connectSubscriberTimer.pending with
        | nil => simp [dispatch, Client.timer, hp, publisherPart, issued, roleCommands]
        | cons callback rest =>
            have hc : callback = .connectSubscriber := h5 _ (by simp [hp])
            subst hc
            by_cases hs : c.subscriber.state = .Connected <;>
              simp [dispatch, Client.timer, hp, waitHandler, invokeMethod, connectSubscriber_eq,
                Client.setTimer, hs, publisherPart, issued, roleCommands]
      · simp [subscriberEvent] at he
  | waitAborted => simp [subscriberEvent] at he
  | message buf =>
      simp [dispatch, onMessage, Client.emit, publisherPart, issued, roleCommands]
  | connectionState r s =>
      cases r
      · simp [subscriberEvent] at he
      · simp [dispatch, connSetState, Client.setConn, publisherPart, issued, roleCommands]
  | elapse d => simp [subscriberEvent] at he

/-- An event that is not of the subscriber alone does to the publisher's part, and commands
the publisher connection, as the publisher's part of the state before tells it to. -/
theorem publisher_part_congr {c c' : Client} (hw : Wired c) (hw' : Wired c')
    (hv : publisherPart c = publisherPart c') (e : Event) (he : subscriberEvent e = false) :
    publisherPart (dispatch c e) = publisherPart (dispatch c' e) ∧
      roleCommands .publisher (issued c (dispatch c e)) =
        roleCommands .publisher (issued c' (dispatch c' e)) := by
  obtain ⟨h1, h2, h3, h4, h5⟩ := hw
  obtain ⟨k1, k2, k3, k4, k5⟩ := hw'
  simp only [publisherPart, Prod.mk.injEq] at hv
  obtain ⟨v1, v2, v3, v4, v5, v6, v7⟩ := hv
  cases e with
  | start =>
      by_cases hp : c'.publisher.state = .Connected <;>
      by_cases hs : c.subscriber.state = .Connected <;>
      by_cases hs' : c'.subscriber.state = .Connected <;>
        simp [dispatch, start, connectPublisher_eq, connectSubscriber_eq, hp, hs, hs',
          publisherPart, issued, roleCommands, v1, v2, v3, v4, v5, v6, v7]
  | connectCompleted r status error =>
      cases r
      · cases status <;>
          simp [dispatch, connectHandler, invokeConnectHandler, connCompleted,
            onPublisherConnected_eq, Client.setConn, Client.conn, publisherPart, issued,
            roleCommands, v1, v2, v3, v4, v5, v6, v7]
      · simp [subscriberEvent] at he
  | transportError r error =>
      cases r
      · by_cases hp : c'.publisher.state = .Connected <;>
          simp [dispatch, errorHandler, Client.conn, h1, k1, invokeMethod, connectPublisher_eq,
            hp, publisherPart, issued, roleCommands, v1, v2, v3, v4, v5, v6, v7]
      · simp [subscriberEvent] at he
  | timerExpired t =>
      cases t
      · cases hp : c'.publishTimer.pending with
        | nil =>
            simp [dispatch, Client.timer, hp, publisherPart, issued, roleCommands, v1, v2, v3,
              v4, v5, v6, v7]
        | cons callback rest =>
            have hc : callback = .onPublishTimeout := k3 _ (by simp [hp])
            subst hc
            by_cases hs : c'.publisher.state = .Connected <;>
              simp [dispatch, Client.timer, hp, waitHandler, invokeMethod, onPublishTimeout_eq,
                Client.setTimer, hs, publisherPart, issued, roleCommands, v1, v2, v3, v4, v5,
                v6, v7]
      · simp [subscriberEvent] at he
      · cases hp : c'.connectPublisherTimer.pending with
        | nil =>
            simp [dispatch, Client.timer, hp, publisherPart, issued, roleCommands, v1, v2, v3,
              v4, v5, v6, v7]
        | cons callback rest =>
            have hc : callback = .connectPublisher := k4 _ (by simp [hp])
            subst hc
            by_cases hs : c'.publisher.state = .Connected <;>
              simp [dispatch, Client.timer, hp, waitHandler, invokeMethod, connectPublisher_eq,
                Client.setTimer, hs, publisherPart, issued, roleCommands, v1, v2, v3, v4, v5,
                v6, v7]
  | waitAborted =>
      cases ha : c.ioService.aborted <;> cases ha' : c'.ioService.aborted <;>
        simp [dispatch, ha, ha', waitHandler, publisherPart, issued, roleCommands, v1, v2, v3,
          v4, v5, v6, v7]
  | message buf => simp [subscriberEvent] at he
  | connectionState r s =>
      cases r
      · simp [dispatch, connSetState, Client.setConn, Client.conn, publisherPart, issued,
          roleCommands, v1, v2, v3, v4, v5, v6, v7]
      · simp [subscriberEvent] at he
  | elapse d =>
      simp [dispatch, publisherPart, issued, roleCommands, v1, v2, v3, v4, v5, v6, v7]

/-- An event of the publisher alone leaves the subscriber's part of the state as it is and
gives the subscriber connection no command. -/
theorem subscriber_part_frame {c : Client} (hw : Wired c) (e : Event)
    (he : publisherEvent e = true) :
    subscriberPart (dispatch c e) = subscriberPart c ∧
      roleCommands .subscriber (issued c (dispatch c e)) = [] := by
  obtain ⟨h1, h2, h3, h4, h5⟩ := hw
  cases e with
  | start => simp [publisherEvent] at he
  | connectCompleted r status error =>
      cases r
      · cases status <;>
          simp [dispatch, connectHandler, invokeConnectHandler, connCompleted,
            onPublisherConnected_eq, Client.setConn, Client.conn, subscriberPart, issued,
            roleCommands]
      · simp [publisherEvent] at he
  | transportError r error =>
      cases r
      · by_cases hs : c.publisher.state = .Connected <;>
          simp [dispatch, errorHandler, Client.conn, h1, invokeMethod, connectPublisher_eq, hs,
            subscriberPart, issued, roleCommands]
      · simp [publisherEvent] at he
  | timerExpired t =>
      cases t
      · cases hp : c.publishTimer.pending with
        | nil => simp [dispatch, Client.timer, hp, subscriberPart, issued, roleCommands]
        | cons callback rest =>
            have hc : callback = .onPublishTimeout := h3 _ (by simp [hp])
            subst hc
            by_cases hs : c.publisher.state = .Connected <;>
              simp [dispatch, Client.timer, hp, waitHandler, invokeMethod, onPublishTimeout_eq,
                Client.setTimer, hs, subscriberPart, issued, roleCommands]
      · simp [publisherEvent] at he
      · cases hp : c.connectPublisherTimer.pending with
        | nil => simp [dispatch, Client.timer, hp, subscriberPart, issued, roleCommands]
        | cons callback rest =>
            have hc : callback = .connectPublisher := h4 _ (by simp [hp])
            subst hc
            by_cases hs : c.publisher.state = .Connected <;>
              simp [dispatch, Client.timer, hp, waitHandler, invokeMethod, connectPublisher_eq,
                Client.setTimer, hs, subscriberPart, issued, roleCommands]
  | waitAborted => simp [publisherEvent] at he
  | message buf => simp [publisherEvent] at he
  | connectionState r s =>
      cases r
      · simp [dispatch, connSetState, Client.setConn, subscriberPart, issued, roleCommands]
      · simp [publisherEvent] at he
  | elapse d => simp [publisherEvent] at he

/-- An event that is not of the publisher alone does to the subscriber's part, and commands
the subscriber connection, as the subscriber's part of the state before tells it to. -/
theorem subscriber_part_congr {c c' : Client} (hw : Wired c) (hw' : Wired c')
    (hv : subscriberPart c = subscriberPart c') (e : Event) (he : publisherEvent e = false) :
    subscriberPart (dispatch c e) = subscriberPart (dispatch c' e) ∧
      roleCommands .subscriber (issued c (dispatch c e)) =
        roleCommands .subscriber (issued c' (dispatch c' e)) := by
  obtain ⟨h1, h2, h3, h4, h5⟩ := hw
  obtain ⟨k1, k2, k3, k4, k5⟩ := hw'
  simp only [subscriberPart, Prod.mk.injEq] at hv
  obtain ⟨v1, v2, v3, v4, v5⟩ := hv
  cases e with
  | start =>
      by_cases hp : c.publisher.state = .Connected <;>
      by_cases hp' : c'.publisher.state = .Connected <;>
      by_cases hs' : c'.subscriber.state = .Connected <;>
        simp [dispatch, start, connectPublisher_eq, connectSubscriber_eq, hp, hp', hs',
          subscriberPart, issued, roleCommands, v1, v2, v3, v4, v5]
  | connectCompleted r status error =>
      cases r
      · simp [publisherEvent] at he
      · cases status <;>
          simp [dispatch, connectHandler, invokeConnectHandler, connCompleted,
            onSubscriberConnected_eq, Client.setConn, Client.conn, subscriberPart, issued,
            roleCommands, v1, v2, v3, v4, v5]
  | transportError r error =>
      cases r
      · simp [publisherEvent] at he
      · by_cases hs : c'.subscriber.state = .Connected <;>
          simp [dispatch, errorHandler, Client.conn, h2, k2, invokeMethod, connectSubscriber_eq,
            hs, subscriberPart, issued, roleCommands, v1, v2, v3, v4, v5]
  | timerExpired t =>
      cases t
      · simp [publisherEvent] at he
      · cases hp : c'.connectSubscriberTimer.pending with
        | nil =>
            simp [dispatch, Client.timer, hp, subscriberPart, issued, roleCommands, v1, v2, v3,
              v4, v5]
        | cons callback rest =>
            have hc : callback = .connectSubscriber := k5 _ (by simp [hp])
            subst hc
            by_cases hs : c'.subscriber.state = .Connected <;>
              simp [dispatch, Client.timer, hp, waitHandler, invokeMethod, connectSubscriber_eq,
                Client.setTimer, hs, subscriberPart, issued, roleCommands, v1, v2, v3, v4, v5]
      · simp [publisherEvent] at he
  | waitAborted =>
      cases ha : c.ioService.aborted <;> cases ha' : c'.ioService.aborted <;>
        simp [dispatch, ha, ha', waitHandler, subscriberPart, issued, roleCommands, v1, v2, v3,
          v4, v5]
  | message buf =>
      simp [dispatch, onMessage, Client.emit, subscriberPart, issued, roleCommands, v1, v2, v3,
        v4, v5]
  | connectionState r s =>
      cases r
      · simp [publisherEvent] at he
      · simp [dispatch, connSetState, Client.setConn, Client.conn, subscriberPart, issued,
          roleCommands, v1, v2, v3, v4, v5]
  | elapse d =>
      simp [dispatch, subscriberPart, issued, roleCommands, v1, v2, v3, v4, v5]

/-- The commands of a role over a run, split at the first event. -/
theorem roleCommands_run_cons (r : Role) (c : Client) (e : Event) (evs : List Event) :
    roleCommands r (issued c (run c (e :: evs))) =
      roleCommands r (issued c (dispatch c e)) ++
        roleCommands r (issued (dispatch c e) (run (dispatch c e) evs)) := by
  rw [issued_run_cons]; simp only [roleCommands, List.filter_append]

/-- The commands to the publisher are those of the run without the subscriber's events. -/
theorem publisher_commands_ignore_subscriber (evs : List Event) : ∀ {c c' : Client},
    Wired c → Wired c' → publisherPart c = publisherPart c' →
    roleCommands .publisher (issued c (run c evs)) =
      roleCommands .publisher
        (issued c' (run c' (evs.filter fun e => !subscriberEvent e))) := by
  induction evs with
  | nil => intro c c' _ _ _; simp [run, issued, roleCommands]
  | cons e evs ih =>
      intro c c' hw hw' hv
      by_cases he : subscriberEvent e = true
      · obtain ⟨f1, f2⟩ := publisher_part_frame hw e he
        rw [roleCommands_run_cons, f2, List.nil_append, List.filter_cons_of_neg (by simp [he])]
        exact ih (wired_dispatch hw e) hw' (f1.trans hv)
      · have he' : subscriberEvent e = false := by simpa using he
        obtain ⟨g1, g2⟩ := publisher_part_congr hw hw' hv e he'
        rw [roleCommands_run_cons, List.filter_cons_of_pos (by simp [he']),
          roleCommands_run_cons, g2]
        congr 1
        exact ih (wired_dispatch hw e) (wired_dispatch hw' e) g1

/-- The commands to the subscriber are those of the run without the publisher's events. -/
theorem subscriber_commands_ignore_publisher (evs : List Event) : ∀ {c c' : Client},
    Wired c → Wired c' → subscriberPart c = subscriberPart c' →
    roleCommands .subscriber (issued c (run c evs)) =
      roleCommands .subscriber
        (issued c' (run c' (evs.filter fun e => !publisherEvent e))) := by
  induction evs with
  | nil => intro c c' _ _ _; simp [run, issued, roleCommands]
  | cons e evs ih =>
      intro c c' hw hw' hv
      by_cases he : publisherEvent e = true
      · obtain ⟨f1, f2⟩ := subscriber_part_frame hw e he
        rw [roleCommands_run_cons, f2, List.nil_append, List.filter_cons_of_neg (by simp [he])]
        exact ih (wired_dispatch hw e) hw' (f1.trans hv)
      · have he' : publisherEvent e = false := by simpa using he
        obtain ⟨g1, g2⟩ := subscriber_part_congr hw hw' hv e he'
        rw [roleCommands_run_cons, List.filter_cons_of_pos (by simp [he']),
          roleCommands_run_cons, g2]
        congr 1
        exact ih (wired_dispatch hw e) (wired_dispatch hw' e) g1

/-- C13: every publisher step (`connectPublisher`, `onPublisherConnected`,
`onPublishTimeout`, `publish`, the installed publisher error handler) leaves the subscriber
connection and `connectSubscriberTimer` unchanged and gives the subscriber no command; every
subscriber step (`connectSubscriber`, `onSubscriberConnected`, `onMessage`, the installed
subscriber error handler) leaves the publisher connection, `publishTimer`,
`connectPublisherTimer` and the counter unchanged and gives the publisher no command. Hence
over every event sequence the commands given to a role, with their times, are those of the
same sequence with all events of the other role removed. -/
theorem roles_do_not_interfere (c : Client) (hw : Wired c) (status : Bool)
    (error m : String) (buf : List Char) (evs : List Event) :
    (∀ d ∈ [connectPublisher c, onPublisherConnected status error c, onPublishTimeout c,
        publish m c, errorHandler .publisher error c],
      d.subscriber = c.subscriber ∧ d.connectSubscriberTimer = c.connectSubscriberTimer ∧
        roleCommands .subscriber (issued c d) = []) ∧
    (∀ d ∈ [connectSubscriber c, onSubscriberConnected status error c, onMessage buf c,
        errorHandler .subscriber error c],
      d.publisher = c.publisher ∧ d.publishTimer = c.publishTimer ∧
        d.connectPublisherTimer = c.connectPublisherTimer ∧ d.counter = c.counter ∧
        roleCommands .publisher (issued c d) = []) ∧
    roleCommands .publisher (issued c (run c evs)) =
      roleCommands .publisher (issued c (run c (evs.filter fun e => !subscriberEvent e))) ∧
    roleCommands .subscriber (issued c (run c evs)) =
      roleCommands .subscriber (issued c (run c (evs.filter fun e => !publisherEvent e))) := by
  refine ⟨?_, ?_, publisher_commands_ignore_subscriber evs hw hw rfl,
    subscriber_commands_ignore_publisher evs hw hw rfl⟩
  · obtain ⟨h1, h2, _, _, _⟩ := hw
    simp only [List.forall_mem_cons, List.not_mem_nil, false_implies, implies_true, and_true]
    by_cases hp : c.publisher.state = .Connected <;> cases status <;>
      simp [connectPublisher_eq, onPublisherConnected_eq, onPublishTimeout_eq, publish,
        connPublish, Client.emit, errorHandler, Client.conn, h1, invokeMethod, hp, issued,
        roleCommands]
  · obtain ⟨h1, h2, _, _, _⟩ := hw
    simp only [List.forall_mem_cons, List.not_mem_nil, false_implies, implies_true, and_true]
    by_cases hs : c.subscriber.state = .Connected <;> cases status <;>
      simp [connectSubscriber_eq, onSubscriberConnected_eq, onMessage, Client.emit,
        errorHandler, Client.conn, h2, invokeMethod, hs, issued, roleCommands]

/-- C13, from the started client with events of both roles interleaved. -/
theorem roles_do_not_interfere_witness :
    Wired startedClient ∧
    roleCommands .publisher (issued startedClient (run startedClient interleavedEvents)) =
      roleCommands .publisher (issued startedClient
        (run startedClient (interleavedEvents.filter fun e => !subscriberEvent e))) :=
  ⟨by decide,
    (roles_do_not_interfere startedClient (by decide) true "" "" [] interleavedEvents).2.2.1⟩

/-! ## Connect and disconnect respect the state of the connection -/

/-- Checking a concatenated log is checking its parts in turn. -/
theorem connCheck_append (l₁ l₂ : List ConnEvent) : ∀ s : ConnState,
    connCheck s (l₁ ++ l₂) = (connCheck s l₁ && connCheck (connAfter s l₁) l₂) := by
  induction l₁ with
  | nil => intro s; simp [connCheck, connAfter]
  | cons x l ih => intro s; simp [connCheck, connAfter, ih, Bool.and_assoc]

/-- Delivering one event respects the discipline on connection `r`, and the automaton ends in
the state the connection is in. -/
theorem connLogOf_ok (r : Role) {c : Client} (hw : Wired c) (e : Event) :
    connCheck (c.conn r).state (connLogOf r c e) = true ∧
      connAfter (c.conn r).state (connLogOf r c e) = ((dispatch c e).conn r).state := by
  obtain ⟨h1, h2, h3, h4, h5⟩ := hw
  cases e with
  | start =>
      cases r <;>
      by_cases hp : c.publisher.state = .Connected <;>
      by_cases hs : c.subscriber.state = .Connected <;>
        simp [connLogOf, dispatch, start, connectPublisher_eq, connectSubscriber_eq, hp, hs,
          issued, connCommands, connCheck, connAllowed, connStep, connAfter, Client.conn]
  | connectCompleted q status error =>
      cases r <;> cases q <;> cases status <;>
        simp [connLogOf, dispatch, connectHandler, invokeConnectHandler, connCompleted,
          onPublisherConnected_eq, onSubscriberConnected_eq, Client.setConn, Client.conn,
          issued, connCommands, connCheck, connAllowed, connStep, connAfter]
  | transportError q error =>
      cases r <;> cases q
      · by_cases hp : c.publisher.state = .Connected <;>
          simp [connLogOf, dispatch, errorHandler, Client.conn, h1, invokeMethod,
            connectPublisher_eq, hp, issued, connCommands, connCheck, connAllowed, connStep,
            connAfter]
      · by_cases hs : c.subscriber.state = .Connected <;>
          simp [connLogOf, dispatch, errorHandler, Client.conn, h2, invokeMethod,
            connectSubscriber_eq, hs, issued, connCommands, connCheck, connAllowed, connStep,
            connAfter]
      · by_cases hp : c.publisher.state = .Connected <;>
          simp [connLogOf, dispatch, errorHandler, Client.conn, h1, invokeMethod,
            connectPublisher_eq, hp, issued, connCommands, connCheck, connAllowed, connStep,
            connAfter]
      · by_cases hs : c.subscriber.state = .Connected <;>
          simp [connLogOf, dispatch, errorHandler, Client.conn, h2, invokeMethod,
            connectSubscriber_eq, hs, issued, connCommands, connCheck, connAllowed, connStep,
            connAfter]
  | timerExpired t =>
      cases t
      · cases hp : c.publishTimer.pending with
        | nil =>
            cases r <;>
              simp [connLogOf, dispatch, Client.timer, hp, issued, connCommands, connCheck,
                connAfter]
        | cons callback rest =>
            have hc : callback = .onPublishTimeout := h3 _ (by simp [hp])
            subst hc
            cases r <;> by_cases hs : c.publisher.state = .Connected <;>
              simp [connLogOf, dispatch, Client.timer, hp, waitHandler, invokeMethod,
                onPublishTimeout_eq, Client.setTimer, hs, issued, connCommands, connCheck,
                connAfter, Client.conn]
      · cases hp : c.connectSubscriberTimer.pending with
        | nil =>
            cases r <;>
              simp [connLogOf, dispatch, Client.timer, hp, issued, connCommands, connCheck,
                connAfter]
        | cons callback rest =>
            have hc : callback = .connectSubscriber := h5 _ (by simp [hp])
            subst hc
            cases r <;> by_cases hs : c.subscriber.state = .Connected <;>
              simp [connLogOf, dispatch, Client.timer, hp, waitHandler, invokeMethod,
                connectSubscriber_eq, Client.setTimer, hs, issued, connCommands, connCheck,
                connAllowed, connStep, connAfter, Client.conn]
      · cases hp : c.connectPublisherTimer.pending with
        | nil =>
            cases r <;>
              simp [connLogOf, dispatch, Client.timer, hp, issued, connCommands, connCheck,
                connAfter]
        | cons callback rest =>
            have hc : callback = .connectPublisher := h4 _ (by simp [hp])
            subst hc
            cases r <;> by_cases hs : c.publisher.state = .Connected <;>
              simp [connLogOf, dispatch, Client.timer, hp, waitHandler, invokeMethod,
                connectPublisher_eq, Client.setTimer, hs, issued, connCommands, connCheck,
                connAllowed, connStep, connAfter, Client.conn]
  | waitAborted =>
      cases ha : c.ioService.aborted with
      | nil => cases r <;> simp [connLogOf, dispatch, ha, issued, connCommands, connCheck, connAfter]
      | cons x rest =>
          cases r <;>
            simp [connLogOf, dispatch, ha, waitHandler, issued, connCommands, connCheck,
              connAfter, Client.conn]
  | message buf =>
      cases r <;>
        simp [connLogOf, dispatch, onMessage, Client.emit, issued, connCommands, connCheck,
          connAfter, Client.conn]
  | connectionState q s =>
      cases r <;> cases q <;>
        simp [connLogOf, dispatch, connSetState, Client.setConn, Client.conn, issued,
          connCommands, connCheck, connAllowed, connStep, connAfter]
  | elapse d =>
      cases r <;>
        simp [connLogOf, dispatch, issued, connCommands, connCheck, connAfter, Client.conn]

/-- Every run respects the discipline on connection `r`. -/
theorem connLog_ok (r : Role) (evs : List Event) : ∀ {c : Client}, Wired c →
    connCheck (c.conn r).state (connLog r c evs) = true ∧
      connAfter (c.conn r).state (connLog r c evs) = ((run c evs).conn r).state := by
  induction evs with
  | nil => intro c _; simp [connLog, connCheck, connAfter, run]
  | cons e evs ih =>
      intro c hw
      obtain ⟨a1, a2⟩ := connLogOf_ok r hw e
      obtain ⟨b1, b2⟩ := ih (wired_dispatch hw e)
      constructor
      · rw [connLog, connCheck_append, a1, a2, b1]; rfl
      · rw [connLog, connAfter, List.foldl_append]
        change connAfter (connAfter _ _) _ = _
        rw [a2, b2]; rfl

/-- C14: with each connection followed by the automaton `Disconnected | Connecting |
Connected`, for every event sequence run from the freshly constructed client and either
connection, every `connect` the client issues finds the connection not `Connected` and every
`disconnect` finds it `Connected`; the automaton ends in the state the connection reports.
(The check is a real one: it rejects a `connect` on a connected connection and a `disconnect`
on one that is not connected.) -/
theorem connects_only_when_not_connected (address : String) (port : Nat) (r : Role)
    (evs : List Event) :
    connCheck .Disconnected (connLog r (Client.new address port) evs) = true ∧
    connAfter .Disconnected (connLog r (Client.new address port) evs) =
      ((run (Client.new address port) evs).conn r).state ∧
    connCheck .Connected [.connect] = false ∧
    connCheck .Disconnected [.disconnect] = false ∧
    connCheck .Connecting [.disconnect] = false := by
  have h := connLog_ok r evs (wired_new address port)
  have h0 : ((Client.new address port).conn r).state = .Disconnected := by cases r <;> rfl
  rw [h0] at h
  exact ⟨h.1, h.2, by decide, by decide, by decide⟩

/-! ## No role stalls -/

/-- Every event leaves the publisher with something pending. -/
theorem publisherBusy_dispatch {c : Client} (hw : Wired c) (hb : publisherBusy c) (e : Event) :
    publisherBusy (dispatch c e) := by
  obtain ⟨h1, h2, h3, h4, h5⟩ := hw
  unfold publisherBusy at hb ⊢
  cases e with
  | start =>
      by_cases hp : c.publisher.state = .Connected <;>
        simp [dispatch, start, connectPublisher_eq, connectSubscriber_eq, hp]
  | connectCompleted r status error =>
      cases r <;> cases status <;>
        simp_all [dispatch, connectHandler, invokeConnectHandler, connCompleted,
          onPublisherConnected_eq, onSubscriberConnected_eq, Client.setConn, Client.conn]
  | transportError r error =>
      cases r
      · by_cases hp : c.publisher.state = .Connected <;>
          simp [dispatch, errorHandler, Client.conn, h1, invokeMethod, connectPublisher_eq, hp]
      · simpa [dispatch, errorHandler, Client.conn, h2, invokeMethod, connectSubscriber_eq]
          using hb
  | timerExpired t =>
      cases t
      · cases hp : c.publishTimer.pending with
        | nil => simpa [dispatch, Client.timer, hp] using hb
        | cons callback rest =>
            have hc : callback = .onPublishTimeout := h3 _ (by simp [hp])
            subst hc
            simp [dispatch, Client.timer, hp, waitHandler, invokeMethod, onPublishTimeout_eq,
              Client.setTimer]
      · cases hp : c.connectSubscriberTimer.pending with
        | nil => simpa [dispatch, Client.timer, hp] using hb
        | cons callback rest =>
            have hc : callback = .connectSubscriber := h5 _ (by simp [hp])
            subst hc
            simpa [dispatch, Client.timer, hp, waitHandler, invokeMethod, connectSubscriber_eq,
              Client.setTimer] using hb
      · cases hp : c.connectPublisherTimer.pending with
        | nil => simpa [dispatch, Client.timer, hp] using hb
        | cons callback rest =>
            have hc : callback = .connectPublisher := h4 _ (by simp [hp])
            subst hc
            by_cases hs : c.publisher.state = .Connected <;>
              simp [dispatch, Client.timer, hp, waitHandler, invokeMethod, connectPublisher_eq,
                Client.setTimer, hs]
  | waitAborted =>
      cases ha : c.ioService.aborted with
      | nil => simpa [dispatch, ha] using hb
      | cons x rest => simpa [dispatch, ha, waitHandler] using hb
  | message buf => simpa [dispatch, onMessage, Client.emit] using hb
  | connectionState r s =>
      cases r <;> simpa [dispatch, connSetState, Client.setConn, Client.conn] using hb
  | elapse d => simpa [dispatch] using hb

/-- Every event but a silent state change leaves the subscriber with something pending or
subscribed. -/
theorem subscriberBusy_dispatch {c : Client} (hw : Wired c) (hb : subscriberBusy c)
    (e : Event) (he : silentChange e = false) :
    subscriberBusy (dispatch c e) := by
  obtain ⟨h1, h2, h3, h4, h5⟩ := hw
  unfold subscriberBusy at hb ⊢
  cases e with
  | start =>
      by_cases hp : c.publisher.state = .Connected <;>
        simp [dispatch, start, connectPublisher_eq, connectSubscriber_eq, hp]
  | connectCompleted r status error =>
      cases r <;> cases status <;>
        simp_all [dispatch, connectHandler, invokeConnectHandler, connCompleted,
          onPublisherConnected_eq, onSubscriberConnected_eq, Client.setConn, Client.conn]
  | transportError r error =>
      cases r
      · by_cases hp : c.publisher.state = .Connected <;>
          simpa [dispatch, errorHandler, Client.conn, h1, invokeMethod, connectPublisher_eq, hp]
            using hb
      · simp [dispatch, errorHandler, Client.conn, h2, invokeMethod, connectSubscriber_eq]
  | timerExpired t =>
      cases t
      · cases hp : c.publishTimer.pending with
        | nil => simpa [dispatch, Client.timer, hp] using hb
        | cons callback rest =>
            have hc : callback = .onPublishTimeout := h3 _ (by simp [hp])
            subst hc
            simpa [dispatch, Client.timer, hp, waitHandler, invokeMethod, onPublishTimeout_eq,
              Client.setTimer] using hb
      · cases hp : c.connectSubscriberTimer.pending with
        | nil => simpa [dispatch, Client.timer, hp] using hb
        | cons callback rest =>
            have hc : callback = .connectSubscriber := h5 _ (by simp [hp])
            subst hc
            simp [dispatch, Client.timer, hp, waitHandler, invokeMethod, connectSubscriber_eq,
              Client.setTimer]
      · cases hp : c.connectPublisherTimer.pending with
        | nil => simpa [dispatch, Client.timer, hp] using hb
        | cons callback rest =>
            have hc : callback = .connectPublisher := h4 _ (by simp [hp])
            subst hc
            by_cases hs : c.publisher.state = .Connected <;>
              simpa [dispatch, Client.timer, hp, waitHandler, invokeMethod, connectPublisher_eq,
                Client.setTimer, hs] using hb
  | waitAborted =>
      cases ha : c.ioService.aborted with
      | nil => simpa [dispatch, ha] using hb
      | cons x rest => simpa [dispatch, ha, waitHandler] using hb
  | message buf => simpa [dispatch, onMessage, Client.emit] using hb
  | connectionState r s => simp [silentChange] at he
  | elapse d => simpa [dispatch] using hb

/-- Runs without silent state changes keep both roles busy. -/
theorem busy_run (evs : List Event) : ∀ {c : Client}, Wired c → publisherBusy c →
    subscriberBusy c → evs.all (fun e => !silentChange e) = true →
    publisherBusy (run c evs) ∧ subscriberBusy (run c evs) := by
  induction evs with
  | nil => intro c _ hp hs _; exact ⟨hp, hs⟩
  | cons e evs ih =>
      intro c hw hp hs he
      rw [List.all_cons, Bool.and_eq_true] at he
      exact ih (wired_dispatch hw e) (publisherBusy_dispatch hw hp e)
        (subscriberBusy_dispatch hw hs e (by simpa using he.1)) he.2

/-- Every run leaves the publisher with something pending. -/
theorem publisherBusy_run (evs : List Event) : ∀ {c : Client}, Wired c → publisherBusy c →
    publisherBusy (run c evs) := by
  induction evs with
  | nil => intro c _ hp; exact hp
  | cons e evs ih =>
      intro c hw hp
      exact ih (wired_dispatch hw e) (publisherBusy_dispatch hw hp e)

/-- C17: in every state reached from `start()` on the freshly constructed client by a finite
sequence of events (completions of either status, timer firings, error-handler invocations,
messages, idle time; deliverable by the loop or not), the publisher has a connect in flight or
a pending wait on `connectPublisherTimer` or on `publishTimer`; and when the sequence holds no
silent state change of a connection, the subscriber has a connect in flight or a pending wait
on `connectSubscriberTimer` or is connected with its subscription issued. -/
theorem no_role_stalls (address : String) (port : Nat) (evs : List Event)
    (he : evs.all (fun e => !silentChange e) = true) :
    publisherBusy (run (start (Client.new address port)) evs) ∧
    subscriberBusy (run (start (Client.new address port)) evs) ∧
    (∀ d, exec (start (Client.new address port)) evs = some d →
      publisherBusy d ∧ subscriberBusy d) ∧
    (∀ evs', publisherBusy (run (start (Client.new address port)) evs')) := by
  have hw : Wired (start (Client.new address port)) :=
    wired_dispatch (wired_new address port) .start
  have hp : publisherBusy (start (Client.new address port)) := Or.inl Nat.zero_lt_one
  have hs : subscriberBusy (start (Client.new address port)) := Or.inl Nat.zero_lt_one
  have h := busy_run evs hw hp hs he
  refine ⟨h.1, h.2, ?_, fun evs' => publisherBusy_run evs' hw hp⟩
  intro d hd
  rw [exec_eq_run _ hd]
  exact h

/-- C17, for the broker-outage scenario after `start()`. -/
theorem no_role_stalls_witness :
    (brokerOutage.drop 1).all (fun e => !silentChange e) = true ∧
    publisherBusy (run (start (Client.new "127.0.0.1" 6379)) (brokerOutage.drop 1)) ∧
    subscriberBusy (run (start (Client.new "127.0.0.1" 6379)) (brokerOutage.drop 1)) :=
  ⟨by decide,
    (no_role_stalls "127.0.0.1" 6379 (brokerOutage.drop 1) (by decide)).1,
    (no_role_stalls "127.0.0.1" 6379 (brokerOutage.drop 1) (by decide)).2.1⟩

end AsyncPubsub
